import Mathlib

/-!
A verification development for the redeye log converter.

The embedding covers:
* the regular-expression matcher used by `CommonLogLineParser` (the pattern in
  `src/redeye/parser.rs` is built only from anchors, single-character classes,
  greedy `+`/`*` over a class, capture groups and concatenation, so the matcher
  is embedded as a complete backtracking search over exactly those constructs,
  with rust-regex leftmost-first semantics);
* chrono's `DateTime::parse_from_str` restricted to the strftime items actually
  reachable from the program (`%d %b %Y %T %H %M %S %z`, literals, whitespace);
* the field extractors and `CommonLogLineParser::parse`;
* the streaming pipeline of `src/bin/redeye.rs`;
* the Combined-format parser (declared by the binary but whose definition is
  not present in the sources), modelled from the spec.
-/

namespace Redeye

/-- Unicode `White_Space` code points: the predicate behind Rust's
`char::is_whitespace` (used by `str::trim`) and the regex class `\s`. -/
def rustIsWhitespace (c : Char) : Bool :=
  let n := c.toNat
  n = 0x09 || n = 0x0A || n = 0x0B || n = 0x0C || n = 0x0D || n = 0x20 ||
  n = 0x85 || n = 0xA0 || n = 0x1680 || (0x2000 ≤ n && n ≤ 0x200A) ||
  n = 0x2028 || n = 0x2029 || n = 0x202F || n = 0x205F || n = 0x3000

/-- Rust `str::trim`: strip leading and trailing Unicode whitespace. -/
def rustTrim (s : String) : String :=
  String.mk (((s.data.dropWhile rustIsWhitespace).reverse.dropWhile rustIsWhitespace).reverse)

/-- Character class `[^\s]` of the log-line patterns. -/
def nonSpace (c : Char) : Bool := !(rustIsWhitespace c)

/-- Character class `.` (rust-regex dot: any character but a newline). -/
def dotNoNl (c : Char) : Bool := c ≠ '\n'

/-- The regex fragment language needed for the redeye patterns: anchors,
single-character classes, greedy `+` and `*` over a class, capture groups and
concatenation.  (The patterns in the program use no other construct.) -/
inductive RE where
  | cls (p : Char → Bool) : RE
  | plusCls (p : Char → Bool) : RE
  | starCls (p : Char → Bool) : RE
  | group (idx : Nat) (a : RE) : RE
  | seq (a b : RE) : RE
  | bol : RE
  | eol : RE

/-- Captured group spans: (group index, start, length), positions in the
haystack the pattern was run against. -/
abbrev Groups := List (Nat × Nat × Nat)

/-- Model of `regex::Captures`: the haystack plus the recorded group spans
(group 0 is the whole match), mirroring that `regex::Match` is a span into the
haystack. -/
structure Captures where
  hay : List Char
  groups : Groups
  deriving Repr, DecidableEq

/-- `Match::as_str`: the substring of the haystack a span denotes. -/
def capStr (hay : List Char) (start len : Nat) : String :=
  String.mk ((hay.drop start).take len)

/-- Continuations of the backtracking matcher: remaining input, absolute
position, groups recorded so far. -/
abbrev MCont := List Char → Nat → Groups → Option Captures

/-- Greedy backtracking for `+`/`*` over a class: try consuming `j` characters
for `j = n, n-1, …, 1` and keep the first continuation that succeeds
(leftmost-first/greedy preference of the rust regex engine). -/
def tryDrops (s : List Char) (p : Nat) (g : Groups) (k : MCont) : Nat → Option Captures
  | 0 => none
  | j + 1 =>
    match k (s.drop (j + 1)) (p + (j + 1)) g with
    | some r => some r
    | none => tryDrops s p g k j

/-- The backtracking matcher, in continuation-passing style.  `p` is the
absolute position in the haystack (`^` succeeds only at 0, `$` only when the
rest is empty, as in rust-regex without multi-line mode).  The search is
complete: it succeeds iff some decomposition fits, and preference follows
greedy leftmost-first order. -/
def reMatch : RE → List Char → Nat → Groups → MCont → Option Captures
  | .cls pc, s, p, g, k =>
    match s with
    | [] => none
    | c :: rest => if pc c then k rest (p + 1) g else none
  | .plusCls pc, s, p, g, k => tryDrops s p g k (s.takeWhile pc).length
  | .starCls pc, s, p, g, k =>
    match tryDrops s p g k (s.takeWhile pc).length with
    | some r => some r
    | none => k s p g
  | .group i a, s, p, g, k =>
    reMatch a s p g (fun s' p' g' => k s' p' ((i, p, p' - p) :: g'))
  | .seq a b, s, p, g, k =>
    reMatch a s p g (fun s' p' g' => reMatch b s' p' g' k)
  | .bol, s, p, g, k => if p = 0 then k s p g else none
  | .eol, s, p, g, k => if s.isEmpty then k s p g else none

/-- Try to match `re` starting at position `i` of `s`; on success group 0
records the span of the whole match. -/
def matchAt (re : RE) (s : List Char) (i : Nat) : Option Captures :=
  reMatch re (s.drop i) i [] (fun _ p' g' => some ⟨s, (0, i, p' - i) :: g'⟩)

/-- Scan the start positions `i, i+1, …` (with fuel) and return the first
match: the leftmost-match rule of `Regex::captures`. -/
def capturesAux (re : RE) (s : List Char) : Nat → Nat → Option Captures
  | 0, _ => none
  | n + 1, i =>
    match matchAt re s i with
    | some c => some c
    | none => capturesAux re s n (i + 1)

/-- `Regex::captures`: leftmost match of `re` in `s`, with group spans. -/
def captures (re : RE) (s : List Char) : Option Captures :=
  capturesAux re s (s.length + 1) 0

/-- Capture-group indices occurring in a pattern. -/
def RE.groupIdxs : RE → List Nat
  | .cls _ => []
  | .plusCls _ => []
  | .starCls _ => []
  | .group i a => i :: a.groupIdxs
  | .seq a b => a.groupIdxs ++ b.groupIdxs
  | .bol => []
  | .eol => []

/-- `$`-freedom, needed by the match-extension lemma. -/
def RE.noEol : RE → Bool
  | .cls _ => true
  | .plusCls _ => true
  | .starCls _ => true
  | .group _ a => a.noEol
  | .seq a b => a.noEol && b.noEol
  | .bol => true
  | .eol => false

/-- The part of the Common log pattern before the bytes capture, translated
piece by piece from `CommonLogLineParser::new`:
`([^\s]+)\s+([^\s]+)\s+([^\s]+)\s+\[(.+)\]\s+"(([^\s]+)\s([^\s]+)\s([^\s]+))"\s+([^\s]+)\s+`. -/
def commonPre : RE :=
  .seq (.group 1 (.plusCls nonSpace)) (.seq (.plusCls rustIsWhitespace)
  (.seq (.group 2 (.plusCls nonSpace)) (.seq (.plusCls rustIsWhitespace)
  (.seq (.group 3 (.plusCls nonSpace)) (.seq (.plusCls rustIsWhitespace)
  (.seq (.cls (· = '[')) (.seq (.group 4 (.plusCls dotNoNl))
  (.seq (.cls (· = ']')) (.seq (.plusCls rustIsWhitespace)
  (.seq (.cls (· = '"'))
  (.seq (.group 5 (.seq (.group 6 (.plusCls nonSpace))
    (.seq (.cls rustIsWhitespace) (.seq (.group 7 (.plusCls nonSpace))
    (.seq (.cls rustIsWhitespace) (.group 8 (.plusCls nonSpace)))))))
  (.seq (.cls (· = '"')) (.seq (.plusCls rustIsWhitespace)
  (.seq (.group 9 (.plusCls nonSpace)) (.plusCls rustIsWhitespace)))))))))))))))

/-- The unanchored body of the Common pattern: `commonPre` followed by the
bytes capture `([^\s]+)` as group 10. -/
def commonBody : RE :=
  .seq commonPre (.group 10 (.plusCls nonSpace))

/-- The full anchored Common log pattern of `CommonLogLineParser::new`:
`^ commonBody $`. -/
def commonLogRegex : RE :=
  .seq .bol (.seq commonBody .eol)

/-- A timezone-aware point in time: model of chrono's
`DateTime<FixedOffset>` at the granularity the program observes (no
sub-second fields are parsed by the format in use; a parsed leap second is
kept as `second = 60`). `offset` is seconds east of UTC. -/
structure FixedDateTime where
  year : Int
  month : Nat
  day : Nat
  hour : Nat
  minute : Nat
  second : Nat
  offset : Int
  deriving Repr, DecidableEq

/-- The diagnostic kinds of `chrono::format::ParseError`. -/
inductive ChronoError where
  | outOfRange
  | impossible
  | notEnough
  | invalid
  | tooShort
  | tooLong
  | badFormat
  deriving Repr, DecidableEq

/-- The strftime items reachable from the format strings the program uses. -/
inductive CItem where
  | numDay
  | numYear
  | numHour
  | numMin
  | numSec
  | shortMonth
  | tzOffset
  | lit (c : Char)
  | space
  | bad
  deriving Repr, DecidableEq

/-- chrono `StrftimeItems`, restricted to the specifiers the program's format
strings can mention (`%T` expands to `%H:%M:%S`; an unsupported specifier
becomes an error item, which makes parsing fail with `BAD_FORMAT`). -/
def formatToItems : List Char → List CItem
  | [] => []
  | '%' :: c :: rest =>
    match c with
    | 'd' => .numDay :: formatToItems rest
    | 'b' => .shortMonth :: formatToItems rest
    | 'Y' => .numYear :: formatToItems rest
    | 'H' => .numHour :: formatToItems rest
    | 'M' => .numMin :: formatToItems rest
    | 'S' => .numSec :: formatToItems rest
    | 'T' => .numHour :: .lit ':' :: .numMin :: .lit ':' :: .numSec :: formatToItems rest
    | 'z' => .tzOffset :: formatToItems rest
    | _ => [.bad]
  | ['%'] => [.bad]
  | c :: rest =>
    (if rustIsWhitespace c then .space else .lit c) :: formatToItems rest

/-- chrono `scan::number`: read 1 up to `max` leading decimal digits. -/
def scanNumber (s : List Char) (max : Nat) : Option (Nat × List Char) :=
  let ds := (s.takeWhile Char.isDigit).take max
  if ds.isEmpty then none
  else some (ds.foldl (fun a c => a * 10 + (c.toNat - 48)) 0, s.drop ds.length)

/-- Exactly two decimal digits (hour and minute parts of a numeric timezone
offset). -/
def twoDigits (s : List Char) : Option (Nat × List Char) :=
  match s with
  | a :: b :: rest =>
    if a.isDigit && b.isDigit then some ((a.toNat - 48) * 10 + (b.toNat - 48), rest)
    else none
  | _ => none

/-- chrono `scan::short_month0`: the first three characters, case-insensitive,
against the English month abbreviations. -/
def monthFromAbbr (a b c : Char) : Option Nat :=
  match a.toLower, b.toLower, c.toLower with
  | 'j', 'a', 'n' => some 1
  | 'f', 'e', 'b' => some 2
  | 'm', 'a', 'r' => some 3
  | 'a', 'p', 'r' => some 4
  | 'm', 'a', 'y' => some 5
  | 'j', 'u', 'n' => some 6
  | 'j', 'u', 'l' => some 7
  | 'a', 'u', 'g' => some 8
  | 's', 'e', 'p' => some 9
  | 'o', 'c', 't' => some 10
  | 'n', 'o', 'v' => some 11
  | 'd', 'e', 'c' => some 12
  | _, _, _ => none

/-- chrono `Parsed`, restricted to the fields our items can set. -/
structure ChronoParsed where
  year : Option Int := none
  month : Option Nat := none
  day : Option Nat := none
  hour : Option Nat := none
  minute : Option Nat := none
  second : Option Nat := none
  offset : Option Int := none
  deriving Repr, DecidableEq

/-- Run the format items over the input, chrono-style: numeric fields and the
timezone offset skip leading whitespace, a whitespace item skips any run of
whitespace, literals must match exactly, `%z` takes a sign, two hour digits,
an optional colon/whitespace run, and two minute digits. -/
def runItems : List CItem → List Char → ChronoParsed →
    Except ChronoError (ChronoParsed × List Char)
  | [], s, pd => .ok (pd, s)
  | .lit c :: its, s, pd =>
    match s with
    | [] => .error .tooShort
    | c' :: rest => if c' = c then runItems its rest pd else .error .invalid
  | .space :: its, s, pd => runItems its (s.dropWhile rustIsWhitespace) pd
  | .numDay :: its, s, pd =>
    match scanNumber (s.dropWhile rustIsWhitespace) 2 with
    | none => .error .invalid
    | some (v, rest) => runItems its rest { pd with day := some v }
  | .numHour :: its, s, pd =>
    match scanNumber (s.dropWhile rustIsWhitespace) 2 with
    | none => .error .invalid
    | some (v, rest) => runItems its rest { pd with hour := some v }
  | .numMin :: its, s, pd =>
    match scanNumber (s.dropWhile rustIsWhitespace) 2 with
    | none => .error .invalid
    | some (v, rest) => runItems its rest { pd with minute := some v }
  | .numSec :: its, s, pd =>
    match scanNumber (s.dropWhile rustIsWhitespace) 2 with
    | none => .error .invalid
    | some (v, rest) => runItems its rest { pd with second := some v }
  | .numYear :: its, s, pd =>
    -- after an explicit sign chrono consumes arbitrarily many digits
    -- (scan::number with no width cap), erring only on i64 overflow
    match s.dropWhile rustIsWhitespace with
    | '-' :: s2 =>
      match scanNumber s2 s2.length with
      | none => .error .invalid
      | some (v, rest) =>
        if v ≤ 9223372036854775807 then runItems its rest { pd with year := some (-(v : Int)) }
        else .error .outOfRange
    | '+' :: s2 =>
      match scanNumber s2 s2.length with
      | none => .error .invalid
      | some (v, rest) =>
        if v ≤ 9223372036854775807 then runItems its rest { pd with year := some (v : Int) }
        else .error .outOfRange
    | s1 =>
      match scanNumber s1 4 with
      | none => .error .invalid
      | some (v, rest) => runItems its rest { pd with year := some (v : Int) }
  | .shortMonth :: its, s, pd =>
    match s with
    | a :: b :: c :: rest =>
      match monthFromAbbr a b c with
      | some m => runItems its rest { pd with month := some m }
      | none => .error .invalid
    | _ => .error .tooShort
  | .tzOffset :: its, s, pd =>
    match s.dropWhile rustIsWhitespace with
    | [] => .error .tooShort
    | sign :: s2 =>
      if sign = '+' ∨ sign = '-' then
        match twoDigits s2 with
        | none => .error .invalid
        | some (h, s3) =>
          match twoDigits (s3.dropWhile (fun c => c = ':' || rustIsWhitespace c)) with
          | none => .error .invalid
          | some (m, s5) =>
            -- chrono's scan::timezone_offset rejects offset minutes ≥ 60
            if 60 ≤ m then .error .outOfRange
            else
              let off : Int := (h * 3600 + m * 60 : Nat)
              runItems its s5 { pd with offset := some (if sign = '-' then -off else off) }
      else .error .invalid
  | .bad :: _, _, _ => .error .badFormat

/-- Proleptic-Gregorian leap year, as chrono computes it. -/
def isLeapYear (y : Int) : Bool := y % 4 = 0 && (y % 100 ≠ 0 || y % 400 = 0)

/-- Calendar month lengths of the proleptic Gregorian calendar. -/
def daysInMonth (y : Int) (m : Nat) : Nat :=
  match m with
  | 1 => 31 | 2 => if isLeapYear y then 29 else 28
  | 3 => 31 | 4 => 30 | 5 => 31 | 6 => 30 | 7 => 31
  | 8 => 31 | 9 => 30 | 10 => 31 | 11 => 30 | 12 => 31
  | _ => 0

/-- Day number of a proleptic-Gregorian date relative to 1970-01-01 (the
standard civil-from-days construction; `Int.fdiv` is floor division, so
negative years are handled). -/
def daysFromCivil (y : Int) (m d : Nat) : Int :=
  let y' : Int := if m ≤ 2 then y - 1 else y
  let era : Int := Int.fdiv y' 400
  let yoe : Int := y' - era * 400
  let mp : Int := if 2 < m then (m : Int) - 3 else (m : Int) + 9
  let doy : Int := Int.fdiv (153 * mp + 2) 5 + (d : Int) - 1
  let doe : Int := yoe * 365 + Int.fdiv yoe 4 - Int.fdiv yoe 100 + doy
  era * 146097 + doe - 719468

/-- chrono `Parsed::to_datetime`: all fields must be present; the offset must
lie strictly inside one day, the date must exist in the proleptic Gregorian
calendar within chrono's year range, the time of day must be valid (a parsed
second of 60 is accepted as a leap second, represented on second 59), and the
checked subtraction of the offset — converting the local datetime to UTC —
must stay inside the `NaiveDateTime` range, else `OUT_OF_RANGE`. -/
def toDateTime (pd : ChronoParsed) : Except ChronoError FixedDateTime :=
  match pd.year, pd.month, pd.day, pd.hour, pd.minute, pd.second, pd.offset with
  | some y, some mo, some d, some h, some mi, some se, some off =>
    if off ≤ -86400 ∨ 86400 ≤ off then .error .outOfRange
    else if y < -262144 ∨ 262143 < y then .error .outOfRange
    else if mo < 1 ∨ 12 < mo ∨ d < 1 ∨ daysInMonth y mo < d then .error .outOfRange
    else if 23 < h ∨ 59 < mi ∨ 60 < se then .error .outOfRange
    else
      let localSec : Int := daysFromCivil y mo d * 86400 +
        ((h * 3600 + mi * 60 + min se 59 : Nat) : Int)
      let utcSec : Int := localSec - off
      if utcSec < daysFromCivil (-262144) 1 1 * 86400 ∨
          daysFromCivil 262143 12 31 * 86400 + 86399 < utcSec then .error .outOfRange
      else .ok ⟨y, mo, d, h, mi, se, off⟩
  | _, _, _, _, _, _, _ => .error .notEnough

/-- chrono `DateTime::parse_from_str`: run the format items and build the
timestamp; leftover input is a `TOO_LONG` error. -/
def DateTime.parse_from_str (s fmt : String) : Except ChronoError FixedDateTime :=
  match runItems (formatToItems fmt.data) s.data {} with
  | .error e => .error e
  | .ok (pd, rest) => if rest.isEmpty then toDateTime pd else .error .tooLong

/-- Rust `str::parse::<u64>`: optional leading `+`, then only decimal digits,
nonempty, value below 2^64. -/
def rustParseU64 (s : String) : Option Nat :=
  let ds := if s.data.head? = some '+' then s.data.tail else s.data
  if ds.isEmpty then none
  else if ds.all Char.isDigit then
    let v := ds.foldl (fun a c => a * 10 + (c.toNat - 48)) 0
    if v < 18446744073709551616 then some v else none
  else none

/-- Modelled from the spec: `RedeyeError` lives in `src/redeye/types.rs`,
which is not among the sources; its four constructors and payloads are taken
from the spec's error taxonomy (§7) and from `handle_redeye_error` in
`src/bin/redeye.rs`.  I/O and serialization payloads are modelled as their
display strings. -/
inductive RedeyeError where
  | IoError (e : String)
  | SerializationError (e : String)
  | TimestampParseError (e : ChronoError)
  | ParseError (line : String)
  deriving Repr, DecidableEq

abbrev RedeyeResult (α : Type) := Except RedeyeError α

/-- `LogFieldValue` from `src/redeye/parser.rs`. -/
inductive LogFieldValue where
  | Timestamp (t : FixedDateTime)
  | Text (s : String)
  | Int (v : Nat)
  deriving Repr, DecidableEq

/-- `LogEvent`: the `HashMap<String, LogFieldValue>` is modelled as an
association list with unique keys (the spec notes order is irrelevant). -/
structure LogEvent where
  values : List (String × LogFieldValue)
  deriving Repr, DecidableEq

/-- `HashMap::insert`: replace any existing binding of the key. -/
def hmInsert (m : List (String × LogFieldValue)) (k : String) (v : LogFieldValue) :
    List (String × LogFieldValue) :=
  (k, v) :: m.filter (fun e => e.1 ≠ k)

/-- `From<HashMap<…>> for LogEvent`. -/
def LogEvent.ofMap (m : List (String × LogFieldValue)) : LogEvent := ⟨m⟩

/-- `COMMON_LOG_TIMESTAMP` from `src/redeye/parser.rs`. -/
def COMMON_LOG_TIMESTAMP : String := "%d/%b/%Y:%T %z"

/-- `Captures::get`. -/
def Captures.get (m : Captures) (index : Nat) : Option (Nat × Nat) :=
  m.groups.lookup index

/-- `parse_text_value` from `src/redeye/parser.rs`. -/
def parse_text_value (ms : Captures) (index : Nat) (line : String) :
    RedeyeResult LogFieldValue :=
  match ms.get index with
  | none => .error (.ParseError line)
  | some (st, len) => .ok (.Text (capStr ms.hay st len))

/-- `parse_int_value` from `src/redeye/parser.rs`. -/
def parse_int_value (ms : Captures) (index : Nat) (line : String) :
    RedeyeResult LogFieldValue :=
  match ms.get index with
  | none => .error (.ParseError line)
  | some (st, len) =>
    match rustParseU64 (capStr ms.hay st len) with
    | none => .error (.ParseError line)
    | some v => .ok (.Int v)

/-- `parse_timestamp` from `src/redeye/parser.rs`.  The `?` on
`DateTime::parse_from_str` converts through `From<chrono::ParseError>`
(in the missing `types.rs`); per the spec's taxonomy that conversion yields
the dedicated timestamp error. -/
def parse_timestamp (ms : Captures) (index : Nat) (line : String) (format : String) :
    RedeyeResult LogFieldValue :=
  match ms.get index with
  | none => .error (.ParseError line)
  | some (st, len) =>
    match DateTime.parse_from_str (capStr ms.hay st len) format with
    | .error e => .error (.TimestampParseError e)
    | .ok t => .ok (.Timestamp t)

/-- `CommonLogLineParser`: holds only the compiled pattern. -/
structure CommonLogLineParser where
  regex : RE

/-- `CommonLogLineParser::new` (the pattern always compiles, so the `unwrap`
never fires). -/
def CommonLogLineParser.new : CommonLogLineParser := ⟨commonLogRegex⟩

/-- `CommonLogLineParser::parse`, line by line from the source: match the
trimmed line, extract the ten fields in order, insert them under the fixed
names, build the event. -/
def CommonLogLineParser.parse (p : CommonLogLineParser) (line : String) :
    RedeyeResult LogEvent :=
  match captures p.regex (rustTrim line).data with
  | none => .error (.ParseError line)
  | some ms => do
    let remote_host ← parse_text_value ms 1 line
    let rfc931 ← parse_text_value ms 2 line
    let username ← parse_text_value ms 3 line
    let timestamp ← parse_timestamp ms 4 line COMMON_LOG_TIMESTAMP
    let request ← parse_text_value ms 5 line
    let method ← parse_text_value ms 6 line
    let path ← parse_text_value ms 7 line
    let protocol ← parse_text_value ms 8 line
    let status ← parse_int_value ms 9 line
    let bytes ← parse_int_value ms 10 line
    let map := hmInsert (hmInsert (hmInsert (hmInsert (hmInsert (hmInsert (hmInsert
      (hmInsert (hmInsert (hmInsert [] "remote_host" remote_host)
      "some_nonsense" rfc931) "username" username) "@timestamp" timestamp)
      "request_url" request) "method" method) "request_uri" path)
      "protocol" protocol) "status_code" status) "bytes" bytes
    pure (LogEvent.ofMap map)

/-- Character class matching only `"`. -/
def isQuote (c : Char) : Bool := c = '"'

/-- Character class `[^"]`. -/
def notQuote (c : Char) : Bool := c ≠ '"'

/-- Modelled from the spec: `CombinedLogLineParser` is imported by
`src/bin/redeye.rs` from `redeye::parser` but its definition is not among the
sources.  Per the spec (§4.1), the Combined grammar is a strict superset of
Common: all Common fields plus a quoted referrer field and a quoted
user-agent field appended after the byte count; either may be the placeholder
`-`.  This fragment is everything the Combined pattern appends after the
bytes capture, except the final closing quote:
`\s+"([^"]*)"\s+"([^"]*`, with referrer as group 11 and user agent as
group 12. -/
def combinedMid : RE :=
  .seq (.plusCls rustIsWhitespace)
  (.seq (.cls isQuote) (.seq (.group 11 (.starCls notQuote))
  (.seq (.cls isQuote) (.seq (.plusCls rustIsWhitespace)
  (.seq (.cls isQuote) (.group 12 (.starCls notQuote)))))))

/-- Modelled from the spec: the anchored Combined pattern
`^ commonBody \s+"([^"]*)"\s+"([^"]*)" $`. -/
def combinedLogRegex : RE :=
  .seq .bol (.seq (.seq commonBody combinedMid) (.seq (.cls isQuote) .eol))

/-- Modelled from the spec: the Combined parser holds only its compiled
pattern, like the Common one. -/
structure CombinedLogLineParser where
  regex : RE

/-- Modelled from the spec: `CombinedLogLineParser::new`. -/
def CombinedLogLineParser.new : CombinedLogLineParser := ⟨combinedLogRegex⟩

/-- Modelled from the spec: `CombinedLogLineParser::parse` — the Common
fields extracted as by the Common parser, plus the quoted referrer and
user-agent fields as text under `referrer` / `user_agent` (§4.3). -/
def CombinedLogLineParser.parse (p : CombinedLogLineParser) (line : String) :
    RedeyeResult LogEvent :=
  match captures p.regex (rustTrim line).data with
  | none => .error (.ParseError line)
  | some ms => do
    let remote_host ← parse_text_value ms 1 line
    let rfc931 ← parse_text_value ms 2 line
    let username ← parse_text_value ms 3 line
    let timestamp ← parse_timestamp ms 4 line COMMON_LOG_TIMESTAMP
    let request ← parse_text_value ms 5 line
    let method ← parse_text_value ms 6 line
    let path ← parse_text_value ms 7 line
    let protocol ← parse_text_value ms 8 line
    let status ← parse_int_value ms 9 line
    let bytes ← parse_int_value ms 10 line
    let referrer ← parse_text_value ms 11 line
    let user_agent ← parse_text_value ms 12 line
    let map := hmInsert (hmInsert (hmInsert (hmInsert (hmInsert (hmInsert (hmInsert
      (hmInsert (hmInsert (hmInsert (hmInsert (hmInsert [] "remote_host" remote_host)
      "some_nonsense" rfc931) "username" username) "@timestamp" timestamp)
      "request_url" request) "method" method) "request_uri" path)
      "protocol" protocol) "status_code" status) "bytes" bytes)
      "referrer" referrer) "user_agent" user_agent
    pure (LogEvent.ofMap map)

/-- One item delivered by the `lines(reader)` stream of the binary: either a
decoded input line or a transport error, which ends the stream. -/
inductive ReadItem where
  | line (s : String)
  | readErr (e : String)
  deriving Repr, DecidableEq

/-- Observable behaviour of one pipeline run: the lines written to standard
output and the diagnostics handed to `handle_redeye_error`, in order. -/
structure PipeOutcome where
  written : List String
  warnings : List RedeyeError
  deriving Repr, DecidableEq

/-- `new_parser_task` from `src/bin/redeye.rs`, translated clause by clause:
`lines(reader).map_err(…).for_each(|line| { let _ = parse ⟫ serialize ⟫
write, warned on error; Ok(()) }).map_err(warn)`.  The serializer
(`serde_json::to_string`, a black box per the spec) and the writer are
parameters; `writeRes w` is the outcome of the `w`-th write attempt (`none`
= success, `some msg` = an I/O error with that display).  A `readErr` makes
the stream yield an error, so `for_each` stops and the outer `map_err` warns;
a failure of parse, serialization or write only warns and the loop
continues with the next line. -/
def new_parser_task (parse : String → RedeyeResult LogEvent)
    (toJson : LogEvent → Except String String)
    (writeRes : Nat → Option String) :
    List ReadItem → Nat → PipeOutcome
  | [], _ => ⟨[], []⟩
  | .readErr e :: _, _ => ⟨[], [.IoError e]⟩
  | .line s :: rest, w =>
    match parse s with
    | .error err =>
      let out := new_parser_task parse toJson writeRes rest w
      ⟨out.written, err :: out.warnings⟩
    | .ok ev =>
      match toJson ev with
      | .error e =>
        let out := new_parser_task parse toJson writeRes rest w
        ⟨out.written, .SerializationError e :: out.warnings⟩
      | .ok json =>
        match writeRes w with
        | none =>
          let out := new_parser_task parse toJson writeRes rest (w + 1)
          ⟨json :: out.written, out.warnings⟩
        | some msg =>
          let out := new_parser_task parse toJson writeRes rest (w + 1)
          ⟨out.written, .IoError msg :: out.warnings⟩

/-! ### Properties of the backtracking matcher -/

theorem tryDrops_eq_some (s : List Char) (p : Nat) (g : Groups) (k : MCont) :
    ∀ (n : Nat) (r : Captures), tryDrops s p g k n = some r →
      ∃ j, 1 ≤ j ∧ j ≤ n ∧ k (s.drop j) (p + j) g = some r := by
  intro n
  induction n with
  | zero => intro r h; simp [tryDrops] at h
  | succ m ih =>
    intro r h
    simp only [tryDrops] at h
    cases hk : k (s.drop (m + 1)) (p + (m + 1)) g with
    | some r' =>
      rw [hk] at h
      simp at h
      exact ⟨m + 1, by omega, le_refl _, by rw [hk, h]⟩
    | none =>
      rw [hk] at h
      obtain ⟨j, h1, h2, h3⟩ := ih r h
      exact ⟨j, h1, by omega, h3⟩

theorem tryDrops_isSome_intro (s : List Char) (p : Nat) (g : Groups) (k : MCont) :
    ∀ (n j : Nat), 1 ≤ j → j ≤ n → (k (s.drop j) (p + j) g).isSome →
      (tryDrops s p g k n).isSome := by
  intro n
  induction n with
  | zero => intro j h1 h2 _; omega
  | succ m ih =>
    intro j h1 h2 hk
    simp only [tryDrops]
    cases hkk : k (s.drop (m + 1)) (p + (m + 1)) g with
    | some r => simp
    | none =>
      by_cases hj : j = m + 1
      · subst hj; rw [hkk] at hk; simp at hk
      · exact ih j h1 (by omega) hk

/-- Inversion for successful matches: the continuation was called on a suffix
of the input, the position advanced by exactly the number of consumed
characters, and the recorded groups extend the incoming ones with entries
whose indices are exactly the pattern's group indices. -/
theorem reMatch_inv :
    ∀ (re : RE) (rest : List Char) (p : Nat) (g : Groups) (k : MCont) (r : Captures),
      reMatch re rest p g k = some r →
      ∃ (v : List Char) (p' : Nat) (gnew : Groups), v <:+ rest ∧
        p' + v.length = p + rest.length ∧
        k v p' (gnew ++ g) = some r ∧
        (∀ e ∈ gnew, (e : Nat × Nat × Nat).1 ∈ re.groupIdxs) ∧
        (∀ i ∈ re.groupIdxs, ∃ e ∈ gnew, (e : Nat × Nat × Nat).1 = i) := by
  intro re
  induction re with
  | cls pc =>
    intro rest p g k r h
    cases rest with
    | nil => simp [reMatch] at h
    | cons c tail =>
      simp only [reMatch] at h
      split at h
      · refine ⟨tail, p + 1, [], List.suffix_cons c tail, by simp; omega, by simpa using h,
          by simp, by simp [RE.groupIdxs]⟩
      · exact absurd h (by simp)
  | plusCls pc =>
    intro rest p g k r h
    simp only [reMatch] at h
    obtain ⟨j, h1, h2, h3⟩ := tryDrops_eq_some rest p g k _ r h
    have hn : (rest.takeWhile pc).length ≤ rest.length :=
      (List.takeWhile_sublist pc).length_le
    refine ⟨rest.drop j, p + j, [], List.drop_suffix j rest, ?_, by simpa using h3,
      by simp, by simp [RE.groupIdxs]⟩
    simp only [List.length_drop]
    omega
  | starCls pc =>
    intro rest p g k r h
    simp only [reMatch] at h
    cases htd : tryDrops rest p g k (rest.takeWhile pc).length with
    | some r' =>
      rw [htd] at h
      simp at h
      obtain ⟨j, h1, h2, h3⟩ := tryDrops_eq_some rest p g k _ r' htd
      have hn : (rest.takeWhile pc).length ≤ rest.length :=
        (List.takeWhile_sublist pc).length_le
      refine ⟨rest.drop j, p + j, [], List.drop_suffix j rest, ?_,
        by simp only [List.nil_append]; rw [h3, h], by simp, by simp [RE.groupIdxs]⟩
      simp only [List.length_drop]
      omega
    | none =>
      rw [htd] at h
      exact ⟨rest, p, [], List.suffix_refl rest, rfl, by simpa using h,
        by simp, by simp [RE.groupIdxs]⟩
  | group i a iha =>
    intro rest p g k r h
    simp only [reMatch] at h
    obtain ⟨v, p', gnew, hsuf, hlen, hk, hkeys, hall⟩ := iha rest p g _ r h
    refine ⟨v, p', (i, p, p' - p) :: gnew, hsuf, hlen, by simpa using hk, ?_, ?_⟩
    · intro e he
      rcases List.mem_cons.mp he with he | he
      · subst he; simp [RE.groupIdxs]
      · simp only [RE.groupIdxs, List.mem_cons]
        exact Or.inr (hkeys e he)
    · intro j hj
      simp only [RE.groupIdxs, List.mem_cons] at hj
      rcases hj with hj | hj
      · exact ⟨(i, p, p' - p), List.mem_cons_self _ _, hj.symm⟩
      · obtain ⟨e, he, hei⟩ := hall j hj
        exact ⟨e, List.mem_cons_of_mem _ he, hei⟩
  | seq a b iha ihb =>
    intro rest p g k r h
    simp only [reMatch] at h
    obtain ⟨v1, p1, g1, hsuf1, hlen1, hk1, hkeys1, hall1⟩ := iha rest p g _ r h
    obtain ⟨v, p', g2, hsuf2, hlen2, hk2, hkeys2, hall2⟩ := ihb v1 p1 (g1 ++ g) k r hk1
    refine ⟨v, p', g2 ++ g1, hsuf2.trans hsuf1, by omega, by simpa using hk2, ?_, ?_⟩
    · intro e he
      simp only [RE.groupIdxs, List.mem_append]
      rcases List.mem_append.mp he with he | he
      · exact Or.inr (hkeys2 e he)
      · exact Or.inl (hkeys1 e he)
    · intro j hj
      simp only [RE.groupIdxs, List.mem_append] at hj
      rcases hj with hj | hj
      · obtain ⟨e, he, hei⟩ := hall1 j hj
        exact ⟨e, List.mem_append.mpr (Or.inr he), hei⟩
      · obtain ⟨e, he, hei⟩ := hall2 j hj
        exact ⟨e, List.mem_append.mpr (Or.inl he), hei⟩
  | bol =>
    intro rest p g k r h
    simp only [reMatch] at h
    split at h
    · exact ⟨rest, p, [], List.suffix_refl rest, rfl, by simpa using h,
        by simp, by simp [RE.groupIdxs]⟩
    · exact absurd h (by simp)
  | eol =>
    intro rest p g k r h
    simp only [reMatch] at h
    split at h
    · exact ⟨rest, p, [], List.suffix_refl rest, rfl, by simpa using h,
        by simp, by simp [RE.groupIdxs]⟩
    · exact absurd h (by simp)

theorem length_takeWhile_append_le (pc : Char → Bool) (t : List Char) :
    ∀ u : List Char, (u.takeWhile pc).length ≤ ((u ++ t).takeWhile pc).length := by
  intro u
  induction u with
  | nil => simp
  | cons c u ih =>
    cases hc : pc c with
    | true => simpa [List.takeWhile_cons, hc] using ih
    | false => simp [List.takeWhile_cons, hc]

/-- The backtracking search is complete, so a successful match extends to any
longer input whose continuation can absorb the appended tail (for `$`-free
patterns). -/
theorem reMatch_ext :
    ∀ (re : RE), re.noEol = true → ∀ (t u : List Char) (p : Nat) (g : Groups) (k k' : MCont),
      (∀ v p' g', (k v p' g').isSome → (k' (v ++ t) p' g').isSome) →
      (reMatch re u p g k).isSome → (reMatch re (u ++ t) p g k').isSome := by
  intro re
  induction re with
  | cls pc =>
    intro _ t u p g k k' hkk h
    cases u with
    | nil => simp [reMatch] at h
    | cons c tail =>
      simp only [reMatch, List.cons_append] at h ⊢
      split at h
      · next hc => simp only [hc, if_true]; exact hkk tail (p + 1) g h
      · simp at h
  | plusCls pc =>
    intro _ t u p g k k' hkk h
    simp only [reMatch] at h ⊢
    obtain ⟨r, hr⟩ := Option.isSome_iff_exists.mp h
    obtain ⟨j, h1, h2, h3⟩ := tryDrops_eq_some u p g k _ r hr
    have hju : j ≤ u.length := h2.trans (List.takeWhile_sublist pc).length_le
    have hdrop : (u ++ t).drop j = u.drop j ++ t := by
      rw [List.drop_append_eq_append_drop]
      have : j - u.length = 0 := by omega
      rw [this, List.drop_zero]
    refine tryDrops_isSome_intro (u ++ t) p g k' _ j h1
      (h2.trans (length_takeWhile_append_le pc t u)) ?_
    rw [hdrop]
    exact hkk (u.drop j) (p + j) g (by simp [h3])
  | starCls pc =>
    intro _ t u p g k k' hkk h
    simp only [reMatch] at h ⊢
    cases htd : tryDrops u p g k (u.takeWhile pc).length with
    | some r =>
      obtain ⟨j, h1, h2, h3⟩ := tryDrops_eq_some u p g k _ r htd
      have hju : j ≤ u.length := h2.trans (List.takeWhile_sublist pc).length_le
      have hdrop : (u ++ t).drop j = u.drop j ++ t := by
        rw [List.drop_append_eq_append_drop]
        have : j - u.length = 0 := by omega
        rw [this, List.drop_zero]
      have : (tryDrops (u ++ t) p g k' ((u ++ t).takeWhile pc).length).isSome := by
        refine tryDrops_isSome_intro (u ++ t) p g k' _ j h1
          (h2.trans (length_takeWhile_append_le pc t u)) ?_
        rw [hdrop]
        exact hkk (u.drop j) (p + j) g (by simp [h3])
      obtain ⟨r', hr'⟩ := Option.isSome_iff_exists.mp this
      simp [hr']
    | none =>
      rw [htd] at h
      have hfall : (k' (u ++ t) p g).isSome := hkk u p g h
      cases htd' : tryDrops (u ++ t) p g k' ((u ++ t).takeWhile pc).length with
      | some r' => simp
      | none => simpa using hfall
  | group i a iha =>
    intro hne t u p g k k' hkk h
    simp only [reMatch] at h ⊢
    refine iha (by simpa [RE.noEol] using hne) t u p g _ _ ?_ h
    intro v p' g' hv
    exact hkk v p' ((i, p, p' - p) :: g') hv
  | seq a b iha ihb =>
    intro hne t u p g k k' hkk h
    have hna : a.noEol = true := by
      have := hne; simp [RE.noEol, Bool.and_eq_true] at this; exact this.1
    have hnb : b.noEol = true := by
      have := hne; simp [RE.noEol, Bool.and_eq_true] at this; exact this.2
    simp only [reMatch] at h ⊢
    refine iha hna t u p g _ _ ?_ h
    intro v p' g' hv
    exact ihb hnb t v p' g' k k' hkk hv
  | bol =>
    intro _ t u p g k k' hkk h
    simp only [reMatch] at h ⊢
    by_cases hp : p = 0
    · subst hp
      simp only [if_pos rfl] at h ⊢
      exact hkk u 0 g h
    · simp [hp] at h
  | eol => intro hne; simp [RE.noEol] at hne

/-- Success introduction for a single-character class. -/
theorem cls_isSome_intro (pc : Char → Bool) (c : Char) (rest : List Char) (p : Nat)
    (g : Groups) (k : MCont) (hc : pc c = true) (hk : (k rest (p + 1) g).isSome) :
    (reMatch (.cls pc) (c :: rest) p g k).isSome := by
  simpa [reMatch, hc] using hk

/-- Success introduction for greedy `+` over a class. -/
theorem plus_isSome_intro (pc : Char → Bool) (s : List Char) (p : Nat) (g : Groups)
    (k : MCont) (j : Nat) (h1 : 1 ≤ j) (h2 : j ≤ (s.takeWhile pc).length)
    (hk : (k (s.drop j) (p + j) g).isSome) :
    (reMatch (.plusCls pc) s p g k).isSome := by
  simpa [reMatch] using tryDrops_isSome_intro s p g k _ j h1 h2 hk

/-- Success introduction for greedy `*` over a class (consuming `j ≥ 0`
characters). -/
theorem star_isSome_intro (pc : Char → Bool) (s : List Char) (p : Nat) (g : Groups)
    (k : MCont) (j : Nat) (h2 : j ≤ (s.takeWhile pc).length)
    (hk : (k (s.drop j) (p + j) g).isSome) :
    (reMatch (.starCls pc) s p g k).isSome := by
  simp only [reMatch]
  rcases Nat.eq_zero_or_pos j with hj | hj
  · subst hj
    simp only [List.drop_zero, Nat.add_zero] at hk
    cases htd : tryDrops s p g k (s.takeWhile pc).length with
    | some r => simp
    | none => simpa using hk
  · have := tryDrops_isSome_intro s p g k _ j hj h2 hk
    obtain ⟨r, hr⟩ := Option.isSome_iff_exists.mp this
    simp [hr]

theorem reMatch_seq_eq (a b : RE) (s : List Char) (p : Nat) (g : Groups) (k : MCont) :
    reMatch (.seq a b) s p g k = reMatch a s p g (fun v p' g' => reMatch b v p' g' k) := rfl

theorem reMatch_group_eq (i : Nat) (a : RE) (s : List Char) (p : Nat) (g : Groups) (k : MCont) :
    reMatch (.group i a) s p g k =
      reMatch a s p g (fun v p' g' => k v p' ((i, p, p' - p) :: g')) := rfl

theorem reMatch_plus_eq (pc : Char → Bool) (s : List Char) (p : Nat) (g : Groups) (k : MCont) :
    reMatch (.plusCls pc) s p g k = tryDrops s p g k (s.takeWhile pc).length := rfl

theorem reMatch_bol_zero (s : List Char) (g : Groups) (k : MCont) :
    reMatch .bol s 0 g k = k s 0 g := by simp [reMatch]

theorem reMatch_eol_eq (s : List Char) (p : Nat) (g : Groups) (k : MCont) :
    reMatch .eol s p g k = if s.isEmpty then k s p g else none := rfl

/-- A `^`-headed pattern can only match at position 0. -/
theorem matchAt_bol_ne (x : RE) (s : List Char) (i : Nat) (hi : i ≠ 0) :
    matchAt (.seq .bol x) s i = none := by
  simp [matchAt, reMatch, hi]

theorem capturesAux_bol_none (x : RE) (s : List Char) :
    ∀ (n i : Nat), i ≠ 0 → capturesAux (.seq .bol x) s n i = none := by
  intro n
  induction n with
  | zero => intro i _; rfl
  | succ m ih =>
    intro i hi
    simp only [capturesAux, matchAt_bol_ne x s i hi]
    exact ih (i + 1) (by omega)

/-- For a `^`-headed pattern, `captures` is exactly the match attempt at
position 0. -/
theorem captures_bol_eq (x : RE) (s : List Char) :
    captures (.seq .bol x) s = matchAt (.seq .bol x) s 0 := by
  simp only [captures, capturesAux]
  cases h : matchAt (.seq .bol x) s 0 with
  | some c => simp
  | none => simpa using capturesAux_bol_none x s s.length 1 (by omega)

theorem lookup_isSome_of_mem (i : Nat) :
    ∀ (l : Groups), (∃ e ∈ l, (e : Nat × Nat × Nat).1 = i) → (l.lookup i).isSome := by
  intro l
  induction l with
  | nil => intro h; simp at h
  | cons a l ih =>
    intro ⟨e, he, hei⟩
    rcases List.mem_cons.mp he with he | he
    · subst he
      simp [List.lookup, hei]
    · by_cases hai : i = a.1
      · simp [List.lookup, hai]
      · simp only [List.lookup, beq_eq_false_iff_ne.mpr hai]
        exact ih ⟨e, he, hei⟩

/-- A suffix span extracts exactly that suffix. -/
theorem capStr_suffix (hay v : List Char) (h : v <:+ hay) :
    capStr hay (hay.length - v.length) v.length = String.mk v := by
  obtain ⟨pre, rfl⟩ := h
  have h1 : (pre ++ v).length - v.length = pre.length := by simp
  rw [capStr, h1, List.drop_left, List.take_length]

/-- Everything a successful Common-pattern match guarantees: the recorded
haystack is the input, the whole-match span (group 0) covers the entire
string, the bytes capture (group 10) is a nonempty non-whitespace suffix
ending at the end of the string, every group of the pattern was recorded,
and the string starts with a non-whitespace character. -/
theorem common_captures_spec (hay : List Char) (caps : Captures)
    (h : captures commonLogRegex hay = some caps) :
    caps.hay = hay ∧
    caps.groups.lookup 0 = some (0, hay.length) ∧
    (∃ v : List Char, v ≠ [] ∧ v <:+ hay ∧
      caps.groups.lookup 10 = some (hay.length - v.length, v.length)) ∧
    (∀ i ∈ commonPre.groupIdxs, (caps.groups.lookup i).isSome) ∧
    (∃ c t, hay = c :: t ∧ nonSpace c = true) := by
  rw [show commonLogRegex = .seq .bol (.seq commonBody .eol) from rfl,
    captures_bol_eq] at h
  rw [matchAt, List.drop_zero, reMatch_seq_eq, reMatch_bol_zero] at h
  rw [show commonBody = .seq commonPre (.group 10 (.plusCls nonSpace)) from rfl] at h
  rw [reMatch_seq_eq, reMatch_seq_eq] at h
  obtain ⟨v1, p1, g1, hsuf1, hlen1, hk1, _, hall1⟩ := reMatch_inv commonPre hay 0 [] _ caps h
  rw [List.append_nil] at hk1
  rw [reMatch_group_eq, reMatch_plus_eq] at hk1
  obtain ⟨j, hj1, hj2, hj3⟩ := tryDrops_eq_some v1 p1 g1 _ _ caps hk1
  have hjv : j ≤ v1.length := hj2.trans (List.takeWhile_sublist nonSpace).length_le
  simp only [Nat.add_sub_cancel_left, reMatch_eol_eq] at hj3
  by_cases hemp : (v1.drop j).isEmpty
  case neg => rw [if_neg hemp] at hj3; exact absurd hj3 (by simp)
  rw [if_pos hemp] at hj3
  have hdrop : v1.drop j = [] := by simpa [List.isEmpty_iff] using hemp
  have hjlen : j = v1.length := by
    have := List.drop_eq_nil_iff.mp hdrop
    omega
  have hcaps : caps = ⟨hay, (0, 0, p1 + j) :: (10, p1, j) :: g1⟩ := by
    have := hj3
    simp only [Nat.sub_zero] at this
    exact (Option.some_injective _ this).symm
  have hp1 : p1 + j = hay.length := by omega
  have hp1' : p1 = hay.length - v1.length := by omega
  have hhead : ∃ c t, hay = c :: t ∧ nonSpace c = true := by
    -- the very first pattern element is `([^\s]+)`, so the match consumed at
    -- least one leading non-whitespace character
    rw [show commonPre = .seq (.group 1 (.plusCls nonSpace)) (.seq (.plusCls rustIsWhitespace)
      (.seq (.group 2 (.plusCls nonSpace)) (.seq (.plusCls rustIsWhitespace)
      (.seq (.group 3 (.plusCls nonSpace)) (.seq (.plusCls rustIsWhitespace)
      (.seq (.cls (· = '[')) (.seq (.group 4 (.plusCls dotNoNl))
      (.seq (.cls (· = ']')) (.seq (.plusCls rustIsWhitespace)
      (.seq (.cls (· = '"'))
      (.seq (.group 5 (.seq (.group 6 (.plusCls nonSpace))
        (.seq (.cls rustIsWhitespace) (.seq (.group 7 (.plusCls nonSpace))
        (.seq (.cls rustIsWhitespace) (.group 8 (.plusCls nonSpace)))))))
      (.seq (.cls (· = '"')) (.seq (.plusCls rustIsWhitespace)
      (.seq (.group 9 (.plusCls nonSpace)) (.plusCls rustIsWhitespace)))))))))))))))
      from rfl] at h
    rw [reMatch_seq_eq, reMatch_group_eq, reMatch_plus_eq] at h
    obtain ⟨j0, hj01, hj02, _⟩ := tryDrops_eq_some hay 0 [] _ _ caps h
    cases hhay : hay with
    | nil =>
      rw [hhay] at hj02
      simp at hj02
      omega
    | cons c t =>
      refine ⟨c, t, rfl, ?_⟩
      by_contra hc
      rw [hhay] at hj02
      simp [List.takeWhile_cons, Bool.not_eq_true] at hj02 hc
      rw [hc] at hj02
      simp at hj02
      omega
  subst hcaps
  refine ⟨rfl, ?_, ⟨v1, ?_, hsuf1, ?_⟩, ?_, hhead⟩
  · simp [List.lookup, hp1]
  · intro hv; rw [hv] at hjlen; simp at hjlen; omega
  · simp [List.lookup, hp1', hjlen]
  · intro i hi
    apply lookup_isSome_of_mem
    obtain ⟨e, he, hei⟩ := hall1 i hi
    exact ⟨e, by simp only [List.mem_cons]; tauto, hei⟩

theorem reMatch_cls_cons_eq (pc : Char → Bool) (c : Char) (rest : List Char) (p : Nat)
    (g : Groups) (k : MCont) :
    reMatch (.cls pc) (c :: rest) p g k = if pc c then k rest (p + 1) g else none := rfl

/-- A line matched by the (modelled) Combined pattern ends with `"`. -/
theorem combined_last_quote (hay : List Char) (caps : Captures)
    (h : captures combinedLogRegex hay = some caps) :
    hay.getLast? = some '"' := by
  rw [show combinedLogRegex =
      .seq .bol (.seq (.seq commonBody combinedMid) (.seq (.cls isQuote) .eol)) from rfl,
    captures_bol_eq] at h
  rw [matchAt, List.drop_zero, reMatch_seq_eq, reMatch_bol_zero, reMatch_seq_eq] at h
  obtain ⟨v, p', g', hsuf, _, hk, _, _⟩ :=
    reMatch_inv (.seq commonBody combinedMid) hay 0 [] _ caps h
  rw [reMatch_seq_eq] at hk
  cases v with
  | nil => simp [reMatch] at hk
  | cons c v2 =>
    rw [reMatch_cls_cons_eq] at hk
    by_cases hq : isQuote c
    case neg => rw [if_neg (by simpa using hq)] at hk; exact absurd hk (by simp)
    rw [if_pos hq, reMatch_eol_eq] at hk
    by_cases hemp : v2.isEmpty
    case neg => rw [if_neg hemp] at hk; exact absurd hk (by simp)
    have hv2 : v2 = [] := by simpa [List.isEmpty_iff] using hemp
    have hc : c = '"' := by simpa [isQuote] using hq
    subst hv2 hc
    obtain ⟨pre, rfl⟩ := hsuf
    exact List.getLast?_concat pre

/-- A string accepted by `str::parse::<u64>` ends in a decimal digit. -/
theorem rustParseU64_last_digit (s : String) (n : Nat) (h : rustParseU64 s = some n) :
    ∃ c, s.data.getLast? = some c ∧ c.isDigit = true := by
  unfold rustParseU64 at h
  set ds := if s.data.head? = some '+' then s.data.tail else s.data with hds
  by_cases hempty : ds.isEmpty
  · rw [if_pos hempty] at h; exact absurd h (by simp)
  rw [if_neg hempty] at h
  by_cases hall : ds.all Char.isDigit
  case neg => rw [if_neg hall] at h; exact absurd h (by simp)
  have hne : ds ≠ [] := by simpa [List.isEmpty_iff] using hempty
  obtain ⟨c, hc⟩ := Option.isSome_iff_exists.mp (List.getLast?_isSome.mpr hne)
  have hmem : c ∈ ds := by
    obtain ⟨hne2, hcc⟩ := List.mem_getLast?_eq_getLast
      (show c ∈ ds.getLast? by simpa using hc)
    rw [hcc]
    exact List.getLast_mem hne2
  have hdig : c.isDigit = true := by
    have := List.all_eq_true.mp hall
    simpa using this c hmem
  refine ⟨c, ?_, hdig⟩
  rw [hds] at hc
  by_cases hplus : s.data.head? = some '+'
  · rw [if_pos hplus] at hc
    cases hsd : s.data with
    | nil => simp [hsd] at hplus
    | cons a t =>
      rw [hsd] at hc
      simp only [List.tail_cons] at hc
      cases t with
      | nil => rw [hds, if_pos hplus, hsd] at hne; simp at hne
      | cons b t' => rw [List.getLast?_cons_cons]; exact hc
  · rwa [if_neg hplus] at hc

/-! ### Trimming -/

theorem dropWhile_dropWhile (p : Char → Bool) (l : List Char) :
    (l.dropWhile p).dropWhile p = l.dropWhile p := by
  induction l with
  | nil => rfl
  | cons c l ih =>
    cases hc : p c with
    | true => simpa [List.dropWhile_cons, hc] using ih
    | false => simp [List.dropWhile_cons, hc]

theorem head_dropWhile_false (p : Char → Bool) :
    ∀ (l : List Char) (c : Char), (l.dropWhile p).head? = some c → p c = false := by
  intro l
  induction l with
  | nil => intro c h; simp at h
  | cons a l ih =>
    intro c h
    cases ha : p a with
    | true => rw [List.dropWhile_cons, if_pos (by simp [ha])] at h; exact ih c h
    | false =>
      rw [List.dropWhile_cons, if_neg (by simp [ha])] at h
      simp only [List.head?_cons, Option.some_inj] at h
      rwa [← h]

/-- Left-trim of a list. -/
def trimL (l : List Char) : List Char := l.dropWhile rustIsWhitespace

/-- Right-trim of a list. -/
def trimR (l : List Char) : List Char := (l.reverse.dropWhile rustIsWhitespace).reverse

theorem rustTrim_eq (s : String) : rustTrim s = String.mk (trimR (trimL s.data)) := rfl

theorem trimR_prefix (l : List Char) : ∃ t, trimR l ++ t = l := by
  obtain ⟨t, ht⟩ := (List.dropWhile_suffix rustIsWhitespace :
    l.reverse.dropWhile rustIsWhitespace <:+ l.reverse)
  exact ⟨t.reverse, by
    have := congrArg List.reverse ht
    simpa [trimR] using this⟩

theorem trimL_trimR_trimL (l : List Char) :
    trimL (trimR (trimL l)) = trimR (trimL l) := by
  cases hy : trimR (trimL l) with
  | nil => rfl
  | cons c rest =>
    have hhead : (trimL l).head? = some c := by
      obtain ⟨t, ht⟩ := trimR_prefix (trimL l)
      rw [hy] at ht
      rw [← ht]
      rfl
    have hc : rustIsWhitespace c = false := head_dropWhile_false _ l c hhead
    simp [trimL, List.dropWhile_cons, hc]

theorem rustTrim_idem (s : String) : rustTrim (rustTrim s) = rustTrim s := by
  rw [rustTrim_eq, rustTrim_eq]
  have hdata : (String.mk (trimR (trimL s.data))).data = trimR (trimL s.data) := rfl
  rw [hdata, trimL_trimR_trimL]
  simp [trimR, List.reverse_reverse, dropWhile_dropWhile]

/-- A string with non-whitespace first and last characters is already
trimmed. -/
theorem rustTrim_eq_self (s : String)
    (h1 : ∀ c, s.data.head? = some c → rustIsWhitespace c = false)
    (h2 : ∀ c, s.data.getLast? = some c → rustIsWhitespace c = false) :
    rustTrim s = s := by
  rw [rustTrim_eq]
  have hL : trimL s.data = s.data := by
    cases hd : s.data with
    | nil => rfl
    | cons c l =>
      have := h1 c (by rw [hd]; rfl)
      simp [trimL, List.dropWhile_cons, this]
  rw [hL]
  have hR : trimR s.data = s.data := by
    cases hd : s.data.reverse.head? with
    | none =>
      have : s.data.reverse = [] := by
        cases hrev : s.data.reverse with
        | nil => rfl
        | cons a t => rw [hrev] at hd; simp at hd
      simp [trimR, this]
      simpa using congrArg List.reverse this
    | some c =>
      have hlast : s.data.getLast? = some c := by rwa [← List.head?_reverse]
      have hc := h2 c hlast
      cases hrev : s.data.reverse with
      | nil => rw [hrev] at hd; simp at hd
      | cons a t =>
        rw [hrev] at hd
        simp only [List.head?_cons, Option.some_inj] at hd
        subst hd
        rw [trimR, hrev, List.dropWhile_cons, if_neg (by simp [hc])]
        rw [← hrev, List.reverse_reverse]
  rw [hR]

/-! ### Except plumbing -/

theorem except_bind_ok {ε α β : Type} (a : Except ε α) (f : α → Except ε β) (b : β)
    (h : a >>= f = .ok b) : ∃ x, a = .ok x ∧ f x = .ok b := by
  cases a with
  | error e => simp [Bind.bind, Except.bind] at h
  | ok x => exact ⟨x, rfl, by simpa [Bind.bind, Except.bind] using h⟩

theorem except_bind_ok_eq {ε α β : Type} (x : α) (f : α → Except ε β) :
    (Except.ok x >>= f) = f x := rfl

theorem except_bind_error_eq {ε α β : Type} (e : ε) (f : α → Except ε β) :
    ((Except.error e : Except ε α) >>= f) = Except.error e := rfl

/-! ### Field-extractor lemmas -/

theorem parse_text_value_eq (ms : Captures) (i : Nat) (l : String) (sp : Nat × Nat)
    (h : ms.groups.lookup i = some sp) :
    parse_text_value ms i l = .ok (.Text (capStr ms.hay sp.1 sp.2)) := by
  obtain ⟨st, len⟩ := sp
  simp [parse_text_value, Captures.get, h]

theorem parse_int_value_eq_ok (ms : Captures) (i : Nat) (l : String) (sp : Nat × Nat) (n : Nat)
    (h : ms.groups.lookup i = some sp) (hn : rustParseU64 (capStr ms.hay sp.1 sp.2) = some n) :
    parse_int_value ms i l = .ok (.Int n) := by
  obtain ⟨st, len⟩ := sp
  simp [parse_int_value, Captures.get, h, hn]

theorem parse_int_value_eq_err (ms : Captures) (i : Nat) (l : String) (sp : Nat × Nat)
    (h : ms.groups.lookup i = some sp) (hn : rustParseU64 (capStr ms.hay sp.1 sp.2) = none) :
    parse_int_value ms i l = .error (.ParseError l) := by
  obtain ⟨st, len⟩ := sp
  simp [parse_int_value, Captures.get, h, hn]

theorem parse_timestamp_eq_ok (ms : Captures) (i : Nat) (l fmt : String) (sp : Nat × Nat)
    (t : FixedDateTime) (h : ms.groups.lookup i = some sp)
    (ht : DateTime.parse_from_str (capStr ms.hay sp.1 sp.2) fmt = .ok t) :
    parse_timestamp ms i l fmt = .ok (.Timestamp t) := by
  obtain ⟨st, len⟩ := sp
  simp [parse_timestamp, Captures.get, h, ht]

theorem parse_timestamp_eq_err (ms : Captures) (i : Nat) (l fmt : String) (sp : Nat × Nat)
    (ce : ChronoError) (h : ms.groups.lookup i = some sp)
    (ht : DateTime.parse_from_str (capStr ms.hay sp.1 sp.2) fmt = .error ce) :
    parse_timestamp ms i l fmt = .error (.TimestampParseError ce) := by
  obtain ⟨st, len⟩ := sp
  simp [parse_timestamp, Captures.get, h, ht]

theorem parse_text_value_ok (ms : Captures) (i : Nat) (l : String) (v : LogFieldValue)
    (h : parse_text_value ms i l = .ok v) :
    ∃ sp, ms.groups.lookup i = some sp ∧ v = .Text (capStr ms.hay sp.1 sp.2) := by
  unfold parse_text_value Captures.get at h
  cases hl : ms.groups.lookup i with
  | none => rw [hl] at h; exact absurd h (by simp)
  | some sp =>
    obtain ⟨st, len⟩ := sp
    rw [hl] at h
    simp only [Except.ok.injEq] at h
    exact ⟨(st, len), rfl, h.symm⟩

theorem parse_int_value_ok (ms : Captures) (i : Nat) (l : String) (v : LogFieldValue)
    (h : parse_int_value ms i l = .ok v) :
    ∃ sp n, ms.groups.lookup i = some sp ∧
      rustParseU64 (capStr ms.hay sp.1 sp.2) = some n ∧ v = .Int n := by
  unfold parse_int_value Captures.get at h
  split at h
  · exact absurd h (by simp)
  · next st len heq =>
    split at h
    · exact absurd h (by simp)
    · next n hn =>
      simp only [Except.ok.injEq] at h
      exact ⟨(st, len), n, heq, hn, h.symm⟩

theorem parse_timestamp_ok (ms : Captures) (i : Nat) (l fmt : String) (v : LogFieldValue)
    (h : parse_timestamp ms i l fmt = .ok v) :
    ∃ sp t, ms.groups.lookup i = some sp ∧
      DateTime.parse_from_str (capStr ms.hay sp.1 sp.2) fmt = .ok t ∧ v = .Timestamp t := by
  unfold parse_timestamp Captures.get at h
  split at h
  · exact absurd h (by simp)
  · next st len heq =>
    split at h
    · exact absurd h (by simp)
    · next t ht =>
      simp only [Except.ok.injEq] at h
      exact ⟨(st, len), t, heq, ht, h.symm⟩

/-- `parse_int_value` either produces an integer field or the generic
format-mismatch error carrying the original line. -/
theorem parse_int_value_cases (ms : Captures) (i : Nat) (l : String) :
    (∃ n, parse_int_value ms i l = .ok (.Int n)) ∨
      parse_int_value ms i l = .error (.ParseError l) := by
  unfold parse_int_value Captures.get
  split
  · exact Or.inr rfl
  · split
    · exact Or.inr rfl
    · exact Or.inl ⟨_, rfl⟩

/-- Evaluation of `CommonLogLineParser::parse` once the capture spans and the
typed extraction results are known. -/
theorem commonParse_eval (l : String) (caps : Captures)
    (sp1 sp2 sp3 sp4 sp5 sp6 sp7 sp8 sp9 sp10 : Nat × Nat)
    (t4 : FixedDateTime) (n9 n10 : Nat)
    (hcap : captures commonLogRegex (rustTrim l).data = some caps)
    (hl1 : caps.groups.lookup 1 = some sp1) (hl2 : caps.groups.lookup 2 = some sp2)
    (hl3 : caps.groups.lookup 3 = some sp3) (hl4 : caps.groups.lookup 4 = some sp4)
    (hl5 : caps.groups.lookup 5 = some sp5) (hl6 : caps.groups.lookup 6 = some sp6)
    (hl7 : caps.groups.lookup 7 = some sp7) (hl8 : caps.groups.lookup 8 = some sp8)
    (hl9 : caps.groups.lookup 9 = some sp9) (hl10 : caps.groups.lookup 10 = some sp10)
    (ht4 : DateTime.parse_from_str (capStr caps.hay sp4.1 sp4.2) COMMON_LOG_TIMESTAMP = .ok t4)
    (hn9 : rustParseU64 (capStr caps.hay sp9.1 sp9.2) = some n9)
    (hn10 : rustParseU64 (capStr caps.hay sp10.1 sp10.2) = some n10) :
    CommonLogLineParser.new.parse l = .ok (LogEvent.ofMap
      [("bytes", .Int n10), ("status_code", .Int n9),
       ("protocol", .Text (capStr caps.hay sp8.1 sp8.2)),
       ("request_uri", .Text (capStr caps.hay sp7.1 sp7.2)),
       ("method", .Text (capStr caps.hay sp6.1 sp6.2)),
       ("request_url", .Text (capStr caps.hay sp5.1 sp5.2)),
       ("@timestamp", .Timestamp t4),
       ("username", .Text (capStr caps.hay sp3.1 sp3.2)),
       ("some_nonsense", .Text (capStr caps.hay sp2.1 sp2.2)),
       ("remote_host", .Text (capStr caps.hay sp1.1 sp1.2))]) := by
  simp only [CommonLogLineParser.parse, CommonLogLineParser.new, hcap,
    parse_text_value_eq caps 1 l sp1 hl1, parse_text_value_eq caps 2 l sp2 hl2,
    parse_text_value_eq caps 3 l sp3 hl3,
    parse_timestamp_eq_ok caps 4 l COMMON_LOG_TIMESTAMP sp4 t4 hl4 ht4,
    parse_text_value_eq caps 5 l sp5 hl5, parse_text_value_eq caps 6 l sp6 hl6,
    parse_text_value_eq caps 7 l sp7 hl7, parse_text_value_eq caps 8 l sp8 hl8,
    parse_int_value_eq_ok caps 9 l sp9 n9 hl9 hn9,
    parse_int_value_eq_ok caps 10 l sp10 n10 hl10 hn10,
    except_bind_ok_eq, hmInsert]
  rfl

/-- Inversion of a successful `CommonLogLineParser::parse`: the pattern
matched the trimmed line, all ten captures are present, the timestamp and
both integers decoded, and the event is exactly the ten decoded fields under
the fixed names. -/
theorem commonParse_ok_inv (l : String) (e : LogEvent)
    (h : CommonLogLineParser.new.parse l = .ok e) :
    ∃ (caps : Captures) (sp1 sp2 sp3 sp4 sp5 sp6 sp7 sp8 sp9 sp10 : Nat × Nat)
      (t4 : FixedDateTime) (n9 n10 : Nat),
      captures commonLogRegex (rustTrim l).data = some caps ∧
      caps.groups.lookup 1 = some sp1 ∧ caps.groups.lookup 2 = some sp2 ∧
      caps.groups.lookup 3 = some sp3 ∧ caps.groups.lookup 4 = some sp4 ∧
      caps.groups.lookup 5 = some sp5 ∧ caps.groups.lookup 6 = some sp6 ∧
      caps.groups.lookup 7 = some sp7 ∧ caps.groups.lookup 8 = some sp8 ∧
      caps.groups.lookup 9 = some sp9 ∧ caps.groups.lookup 10 = some sp10 ∧
      DateTime.parse_from_str (capStr caps.hay sp4.1 sp4.2) COMMON_LOG_TIMESTAMP = .ok t4 ∧
      rustParseU64 (capStr caps.hay sp9.1 sp9.2) = some n9 ∧
      rustParseU64 (capStr caps.hay sp10.1 sp10.2) = some n10 ∧
      e = LogEvent.ofMap
        [("bytes", .Int n10), ("status_code", .Int n9),
         ("protocol", .Text (capStr caps.hay sp8.1 sp8.2)),
         ("request_uri", .Text (capStr caps.hay sp7.1 sp7.2)),
         ("method", .Text (capStr caps.hay sp6.1 sp6.2)),
         ("request_url", .Text (capStr caps.hay sp5.1 sp5.2)),
         ("@timestamp", .Timestamp t4),
         ("username", .Text (capStr caps.hay sp3.1 sp3.2)),
         ("some_nonsense", .Text (capStr caps.hay sp2.1 sp2.2)),
         ("remote_host", .Text (capStr caps.hay sp1.1 sp1.2))] := by
  unfold CommonLogLineParser.parse CommonLogLineParser.new at h
  split at h
  · exact absurd h (by simp)
  · next caps hcap =>
    obtain ⟨v1, hv1, h⟩ := except_bind_ok _ _ _ h
    obtain ⟨v2, hv2, h⟩ := except_bind_ok _ _ _ h
    obtain ⟨v3, hv3, h⟩ := except_bind_ok _ _ _ h
    obtain ⟨v4, hv4, h⟩ := except_bind_ok _ _ _ h
    obtain ⟨v5, hv5, h⟩ := except_bind_ok _ _ _ h
    obtain ⟨v6, hv6, h⟩ := except_bind_ok _ _ _ h
    obtain ⟨v7, hv7, h⟩ := except_bind_ok _ _ _ h
    obtain ⟨v8, hv8, h⟩ := except_bind_ok _ _ _ h
    obtain ⟨v9, hv9, h⟩ := except_bind_ok _ _ _ h
    obtain ⟨v10, hv10, h⟩ := except_bind_ok _ _ _ h
    obtain ⟨sp1, hl1, he1⟩ := parse_text_value_ok _ _ _ _ hv1
    obtain ⟨sp2, hl2, he2⟩ := parse_text_value_ok _ _ _ _ hv2
    obtain ⟨sp3, hl3, he3⟩ := parse_text_value_ok _ _ _ _ hv3
    obtain ⟨sp4, t4, hl4, ht4, he4⟩ := parse_timestamp_ok _ _ _ _ _ hv4
    obtain ⟨sp5, hl5, he5⟩ := parse_text_value_ok _ _ _ _ hv5
    obtain ⟨sp6, hl6, he6⟩ := parse_text_value_ok _ _ _ _ hv6
    obtain ⟨sp7, hl7, he7⟩ := parse_text_value_ok _ _ _ _ hv7
    obtain ⟨sp8, hl8, he8⟩ := parse_text_value_ok _ _ _ _ hv8
    obtain ⟨sp9, n9, hl9, hn9, he9⟩ := parse_int_value_ok _ _ _ _ hv9
    obtain ⟨sp10, n10, hl10, hn10, he10⟩ := parse_int_value_ok _ _ _ _ hv10
    subst he1 he2 he3 he4 he5 he6 he7 he8 he9 he10
    have he : e = LogEvent.ofMap
        [("bytes", .Int n10), ("status_code", .Int n9),
         ("protocol", .Text (capStr caps.hay sp8.1 sp8.2)),
         ("request_uri", .Text (capStr caps.hay sp7.1 sp7.2)),
         ("method", .Text (capStr caps.hay sp6.1 sp6.2)),
         ("request_url", .Text (capStr caps.hay sp5.1 sp5.2)),
         ("@timestamp", .Timestamp t4),
         ("username", .Text (capStr caps.hay sp3.1 sp3.2)),
         ("some_nonsense", .Text (capStr caps.hay sp2.1 sp2.2)),
         ("remote_host", .Text (capStr caps.hay sp1.1 sp1.2))] := by
      have h' : (Except.ok : LogEvent → RedeyeResult LogEvent) (LogEvent.ofMap (hmInsert (hmInsert (hmInsert
          (hmInsert (hmInsert (hmInsert (hmInsert (hmInsert (hmInsert (hmInsert []
          "remote_host" (.Text (capStr caps.hay sp1.1 sp1.2)))
          "some_nonsense" (.Text (capStr caps.hay sp2.1 sp2.2)))
          "username" (.Text (capStr caps.hay sp3.1 sp3.2)))
          "@timestamp" (.Timestamp t4))
          "request_url" (.Text (capStr caps.hay sp5.1 sp5.2)))
          "method" (.Text (capStr caps.hay sp6.1 sp6.2)))
          "request_uri" (.Text (capStr caps.hay sp7.1 sp7.2)))
          "protocol" (.Text (capStr caps.hay sp8.1 sp8.2)))
          "status_code" (.Int n9)) "bytes" (.Int n10))) = Except.ok e := h
      have h2 := h'
      rw [Except.ok.injEq] at h2
      rw [← h2]
      rfl
    exact ⟨caps, sp1, sp2, sp3, sp4, sp5, sp6, sp7, sp8, sp9, sp10, t4, n9, n10,
      hcap, hl1, hl2, hl3, hl4, hl5, hl6, hl7, hl8, hl9, hl10, ht4, hn9, hn10, he⟩

/-- A batch of parses: the parser object is threaded through unchanged. -/
def runBatch (p : CommonLogLineParser) (ls : List String) : List (RedeyeResult LogEvent) :=
  ls.map p.parse

/-! ### Claims -/

/-- C1: for every input line matching the Common log grammar (the matcher
succeeds, with capture spans `sp1 … sp10`) whose bracketed timestamp capture
parses under `%d/%b/%Y:%T %z` and whose status and byte-count captures parse
as `u64`, `CommonLogLineParser::parse` returns `Ok` with exactly the decoded
values under the fixed field names; in particular, the line
`125.125.125.125 - dsmith [10/Oct/1999:21:15:05 +0500] "GET /index.html HTTP/1.0" 200 1043`
decodes to `remote_host = Text "125.125.125.125"`,
`some_nonsense = Text "-"`, `username = Text "dsmith"`,
`@timestamp = Timestamp 1999-10-10T21:15:05+05:00` (offset 18000 s),
`request_url = Text "GET /index.html HTTP/1.0"`, `method = Text "GET"`,
`request_uri = Text "/index.html"`, `protocol = Text "HTTP/1.0"`,
`status_code = Int 200`, `bytes = Int 1043`. -/
theorem common_parse_decodes_matching_lines :
    (∀ (l : String) (caps : Captures)
      (sp1 sp2 sp3 sp4 sp5 sp6 sp7 sp8 sp9 sp10 : Nat × Nat)
      (t4 : FixedDateTime) (n9 n10 : Nat),
      captures commonLogRegex (rustTrim l).data = some caps →
      caps.groups.lookup 1 = some sp1 → caps.groups.lookup 2 = some sp2 →
      caps.groups.lookup 3 = some sp3 → caps.groups.lookup 4 = some sp4 →
      caps.groups.lookup 5 = some sp5 → caps.groups.lookup 6 = some sp6 →
      caps.groups.lookup 7 = some sp7 → caps.groups.lookup 8 = some sp8 →
      caps.groups.lookup 9 = some sp9 → caps.groups.lookup 10 = some sp10 →
      DateTime.parse_from_str (capStr caps.hay sp4.1 sp4.2) COMMON_LOG_TIMESTAMP = .ok t4 →
      rustParseU64 (capStr caps.hay sp9.1 sp9.2) = some n9 →
      rustParseU64 (capStr caps.hay sp10.1 sp10.2) = some n10 →
      CommonLogLineParser.new.parse l = .ok (LogEvent.ofMap
        [("bytes", .Int n10), ("status_code", .Int n9),
         ("protocol", .Text (capStr caps.hay sp8.1 sp8.2)),
         ("request_uri", .Text (capStr caps.hay sp7.1 sp7.2)),
         ("method", .Text (capStr caps.hay sp6.1 sp6.2)),
         ("request_url", .Text (capStr caps.hay sp5.1 sp5.2)),
         ("@timestamp", .Timestamp t4),
         ("username", .Text (capStr caps.hay sp3.1 sp3.2)),
         ("some_nonsense", .Text (capStr caps.hay sp2.1 sp2.2)),
         ("remote_host", .Text (capStr caps.hay sp1.1 sp1.2))])) ∧
    CommonLogLineParser.new.parse
      "125.125.125.125 - dsmith [10/Oct/1999:21:15:05 +0500] \"GET /index.html HTTP/1.0\" 200 1043" =
    .ok (LogEvent.ofMap
      [("bytes", .Int 1043), ("status_code", .Int 200), ("protocol", .Text "HTTP/1.0"),
       ("request_uri", .Text "/index.html"), ("method", .Text "GET"),
       ("request_url", .Text "GET /index.html HTTP/1.0"),
       ("@timestamp", .Timestamp ⟨1999, 10, 10, 21, 15, 5, 18000⟩),
       ("username", .Text "dsmith"), ("some_nonsense", .Text "-"),
       ("remote_host", .Text "125.125.125.125")]) := by
  constructor
  · intro l caps sp1 sp2 sp3 sp4 sp5 sp6 sp7 sp8 sp9 sp10 t4 n9 n10
      hcap hl1 hl2 hl3 hl4 hl5 hl6 hl7 hl8 hl9 hl10 ht4 hn9 hn10
    exact commonParse_eval l caps sp1 sp2 sp3 sp4 sp5 sp6 sp7 sp8 sp9 sp10 t4 n9 n10
      hcap hl1 hl2 hl3 hl4 hl5 hl6 hl7 hl8 hl9 hl10 ht4 hn9 hn10
  · rfl

theorem common_parse_decodes_matching_lines_witness :
    CommonLogLineParser.new.parse
      "125.125.125.125 - dsmith [10/Oct/1999:21:15:05 +0500] \"GET /index.html HTTP/1.0\" 200 1043" =
    .ok (LogEvent.ofMap
      [("bytes", .Int 1043), ("status_code", .Int 200), ("protocol", .Text "HTTP/1.0"),
       ("request_uri", .Text "/index.html"), ("method", .Text "GET"),
       ("request_url", .Text "GET /index.html HTTP/1.0"),
       ("@timestamp", .Timestamp ⟨1999, 10, 10, 21, 15, 5, 18000⟩),
       ("username", .Text "dsmith"), ("some_nonsense", .Text "-"),
       ("remote_host", .Text "125.125.125.125")]) :=
  common_parse_decodes_matching_lines.1
    "125.125.125.125 - dsmith [10/Oct/1999:21:15:05 +0500] \"GET /index.html HTTP/1.0\" 200 1043"
    ⟨(rustTrim "125.125.125.125 - dsmith [10/Oct/1999:21:15:05 +0500] \"GET /index.html HTTP/1.0\" 200 1043").data,
     [(0, 0, 89), (10, 85, 4), (9, 81, 3), (5, 55, 24), (8, 71, 8), (7, 59, 11), (6, 55, 3),
      (4, 26, 26), (3, 18, 6), (2, 16, 1), (1, 0, 15)]⟩
    (0, 15) (16, 1) (18, 6) (26, 26) (55, 24) (55, 3) (59, 11) (71, 8) (81, 3) (85, 4)
    ⟨1999, 10, 10, 21, 15, 5, 18000⟩ 200 1043
    rfl rfl rfl rfl rfl rfl rfl rfl rfl rfl rfl rfl rfl rfl

/-- C8: `parse` is deterministic and the parser stateless: in any batch of
invocations, the same line — parsed twice, interleaved with arbitrary other
lines — produces the same structurally identical result both times, equal to
a fresh invocation's result, and the parser value is never modified (it is
threaded through `runBatch` unchanged by construction). -/
theorem parse_deterministic_stateless (p : CommonLogLineParser)
    (ls1 ls2 : List String) (l : String) :
    runBatch p (ls1 ++ l :: ls2 ++ [l]) =
      runBatch p ls1 ++ p.parse l :: runBatch p ls2 ++ [p.parse l] := by
  simp [runBatch]

/-- C9: the three field extractors are total; on a structurally absent
capture group they return the format-mismatch `ParseError` carrying the
original line (no panic is possible: the functions are total by
construction). -/
theorem extractors_total_on_absent_group (ms : Captures) (i : Nat) (l fmt : String)
    (h : ms.groups.lookup i = none) :
    parse_text_value ms i l = .error (.ParseError l) ∧
    parse_int_value ms i l = .error (.ParseError l) ∧
    parse_timestamp ms i l fmt = .error (.ParseError l) := by
  refine ⟨?_, ?_, ?_⟩ <;>
    simp [parse_text_value, parse_int_value, parse_timestamp, Captures.get, h]

theorem extractors_total_on_absent_group_witness :
    parse_text_value ⟨[], []⟩ 1 "x" = .error (.ParseError "x") ∧
    parse_int_value ⟨[], []⟩ 1 "x" = .error (.ParseError "x") ∧
    parse_timestamp ⟨[], []⟩ 1 "x" COMMON_LOG_TIMESTAMP = .error (.ParseError "x") :=
  extractors_total_on_absent_group ⟨[], []⟩ 1 "x" COMMON_LOG_TIMESTAMP rfl

/-- C3 (corrected): a failure of the underlying *read* transport is fatal —
the stream ends and nothing after it is processed, whatever follows; but a
failure of a *write* is handled per line exactly like parse/serialization
failures: the error is warned and the pipeline continues with the next line
(the per-line closure in `new_parser_task` discards the write result and
returns `Ok(())`). -/
theorem pipeline_read_fatal_write_per_line :
    (∀ (parse : String → RedeyeResult LogEvent) (toJson : LogEvent → Except String String)
      (writeRes : Nat → Option String) (e : String) (suf : List ReadItem) (w : Nat),
      new_parser_task parse toJson writeRes (.readErr e :: suf) w = ⟨[], [.IoError e]⟩) ∧
    (∀ (parse : String → RedeyeResult LogEvent) (toJson : LogEvent → Except String String)
      (writeRes : Nat → Option String) (s : String) (rest : List ReadItem) (w : Nat)
      (ev : LogEvent) (json msg : String),
      parse s = .ok ev → toJson ev = .ok json → writeRes w = some msg →
      new_parser_task parse toJson writeRes (.line s :: rest) w =
        ⟨(new_parser_task parse toJson writeRes rest (w + 1)).written,
         .IoError msg :: (new_parser_task parse toJson writeRes rest (w + 1)).warnings⟩) := by
  constructor
  · intro parse toJson writeRes e suf w
    rfl
  · intro parse toJson writeRes s rest w ev json msg h1 h2 h3
    simp [new_parser_task, h1, h2, h3]

theorem pipeline_read_fatal_write_per_line_witness :
    new_parser_task CommonLogLineParser.new.parse (fun _ => .ok "json")
        (fun _ => some "boom") (.readErr "gone" :: [.line "x"]) 0 = ⟨[], [.IoError "gone"]⟩ ∧
    new_parser_task CommonLogLineParser.new.parse (fun _ => .ok "json")
        (fun _ => some "boom")
        (.line "125.125.125.125 - dsmith [10/Oct/1999:21:15:05 +0500] \"GET /index.html HTTP/1.0\" 200 1043" :: []) 0 =
      ⟨(new_parser_task CommonLogLineParser.new.parse (fun _ => .ok "json")
          (fun _ => some "boom") [] 1).written,
       .IoError "boom" :: (new_parser_task CommonLogLineParser.new.parse (fun _ => .ok "json")
          (fun _ => some "boom") [] 1).warnings⟩ :=
  ⟨pipeline_read_fatal_write_per_line.1 CommonLogLineParser.new.parse (fun _ => .ok "json")
      (fun _ => some "boom") "gone" [.line "x"] 0,
   pipeline_read_fatal_write_per_line.2 CommonLogLineParser.new.parse (fun _ => .ok "json")
      (fun _ => some "boom")
      "125.125.125.125 - dsmith [10/Oct/1999:21:15:05 +0500] \"GET /index.html HTTP/1.0\" 200 1043"
      [] 0
      (LogEvent.ofMap
        [("bytes", .Int 1043), ("status_code", .Int 200), ("protocol", .Text "HTTP/1.0"),
         ("request_uri", .Text "/index.html"), ("method", .Text "GET"),
         ("request_url", .Text "GET /index.html HTTP/1.0"),
         ("@timestamp", .Timestamp ⟨1999, 10, 10, 21, 15, 5, 18000⟩),
         ("username", .Text "dsmith"), ("some_nonsense", .Text "-"),
         ("remote_host", .Text "125.125.125.125")])
      "json" "boom" rfl rfl rfl⟩

/-- C3 counterexample: a run in which the very first write fails with an I/O
error, yet the pipeline goes on to parse and successfully write the second
input line (`written = ["json"]` comes from the second line, after the write
error) — refuting "after any I/O error on write, the pipeline terminates and
processes no further input lines". -/
theorem pipeline_write_error_not_fatal_counterexample :
    new_parser_task CommonLogLineParser.new.parse (fun _ => .ok "json")
      (fun n => if n = 0 then some "broken pipe" else none)
      [.line "125.125.125.125 - dsmith [10/Oct/1999:21:15:05 +0500] \"GET /index.html HTTP/1.0\" 200 1043",
       .line "125.125.125.125 - dsmith [10/Oct/1999:21:15:05 +0500] \"GET /index.html HTTP/1.0\" 200 1043"] 0 =
    ⟨["json"], [.IoError "broken pipe"]⟩ := by rfl

/-- C5: a Common-shaped line whose bracketed timestamp capture does not parse
under `%d/%b/%Y:%T %z` fails with the dedicated `TimestampParseError`
carrying the chrono diagnostic — a different constructor from the generic
`ParseError`, whatever the rest of the line holds. -/
theorem timestamp_failure_gives_dedicated_error (l : String) (caps : Captures)
    (sp4 : Nat × Nat) (ce : ChronoError)
    (hcap : captures commonLogRegex (rustTrim l).data = some caps)
    (hl4 : caps.groups.lookup 4 = some sp4)
    (hts : DateTime.parse_from_str (capStr caps.hay sp4.1 sp4.2) COMMON_LOG_TIMESTAMP =
      .error ce) :
    CommonLogLineParser.new.parse l = .error (.TimestampParseError ce) ∧
    ∀ s, CommonLogLineParser.new.parse l ≠ .error (.ParseError s) := by
  obtain ⟨-, -, -, hlk, -⟩ := common_captures_spec _ caps hcap
  obtain ⟨sp1, hl1⟩ := Option.isSome_iff_exists.mp (hlk 1 (by decide))
  obtain ⟨sp2, hl2⟩ := Option.isSome_iff_exists.mp (hlk 2 (by decide))
  obtain ⟨sp3, hl3⟩ := Option.isSome_iff_exists.mp (hlk 3 (by decide))
  have hmain : CommonLogLineParser.new.parse l = .error (.TimestampParseError ce) := by
    simp only [CommonLogLineParser.parse, CommonLogLineParser.new, hcap,
      parse_text_value_eq caps 1 l sp1 hl1, parse_text_value_eq caps 2 l sp2 hl2,
      parse_text_value_eq caps 3 l sp3 hl3,
      parse_timestamp_eq_err caps 4 l COMMON_LOG_TIMESTAMP sp4 ce hl4 hts,
      except_bind_ok_eq, except_bind_error_eq]
  exact ⟨hmain, fun s => by rw [hmain]; simp⟩

theorem timestamp_failure_gives_dedicated_error_witness :
    CommonLogLineParser.new.parse
        "125.125.125.125 - dsmith [banana] \"GET /index.html HTTP/1.0\" 200 1043" =
      .error (.TimestampParseError .invalid) ∧
    ∀ s, CommonLogLineParser.new.parse
        "125.125.125.125 - dsmith [banana] \"GET /index.html HTTP/1.0\" 200 1043" ≠
      .error (.ParseError s) :=
  timestamp_failure_gives_dedicated_error
    "125.125.125.125 - dsmith [banana] \"GET /index.html HTTP/1.0\" 200 1043"
    ⟨(rustTrim "125.125.125.125 - dsmith [banana] \"GET /index.html HTTP/1.0\" 200 1043").data,
     [(0, 0, 69), (10, 65, 4), (9, 61, 3), (5, 35, 24), (8, 51, 8), (7, 39, 11), (6, 35, 3),
      (4, 26, 6), (3, 18, 6), (2, 16, 1), (1, 0, 15)]⟩
    (26, 6) .invalid rfl rfl rfl

/-- C6: a Common-shaped line with a valid timestamp whose status-code capture
is not a valid `u64` fails with the generic format-mismatch `ParseError`
carrying the original line, not with the timestamp error. -/
theorem bad_status_gives_format_mismatch (l : String) (caps : Captures)
    (sp4 sp9 : Nat × Nat) (t4 : FixedDateTime)
    (hcap : captures commonLogRegex (rustTrim l).data = some caps)
    (hl4 : caps.groups.lookup 4 = some sp4)
    (hts : DateTime.parse_from_str (capStr caps.hay sp4.1 sp4.2) COMMON_LOG_TIMESTAMP = .ok t4)
    (hl9 : caps.groups.lookup 9 = some sp9)
    (hn9 : rustParseU64 (capStr caps.hay sp9.1 sp9.2) = none) :
    CommonLogLineParser.new.parse l = .error (.ParseError l) ∧
    ∀ ce, CommonLogLineParser.new.parse l ≠ .error (.TimestampParseError ce) := by
  obtain ⟨-, -, -, hlk, -⟩ := common_captures_spec _ caps hcap
  obtain ⟨sp1, hl1⟩ := Option.isSome_iff_exists.mp (hlk 1 (by decide))
  obtain ⟨sp2, hl2⟩ := Option.isSome_iff_exists.mp (hlk 2 (by decide))
  obtain ⟨sp3, hl3⟩ := Option.isSome_iff_exists.mp (hlk 3 (by decide))
  obtain ⟨sp5, hl5⟩ := Option.isSome_iff_exists.mp (hlk 5 (by decide))
  obtain ⟨sp6, hl6⟩ := Option.isSome_iff_exists.mp (hlk 6 (by decide))
  obtain ⟨sp7, hl7⟩ := Option.isSome_iff_exists.mp (hlk 7 (by decide))
  obtain ⟨sp8, hl8⟩ := Option.isSome_iff_exists.mp (hlk 8 (by decide))
  have hmain : CommonLogLineParser.new.parse l = .error (.ParseError l) := by
    simp only [CommonLogLineParser.parse, CommonLogLineParser.new, hcap,
      parse_text_value_eq caps 1 l sp1 hl1, parse_text_value_eq caps 2 l sp2 hl2,
      parse_text_value_eq caps 3 l sp3 hl3,
      parse_timestamp_eq_ok caps 4 l COMMON_LOG_TIMESTAMP sp4 t4 hl4 hts,
      parse_text_value_eq caps 5 l sp5 hl5, parse_text_value_eq caps 6 l sp6 hl6,
      parse_text_value_eq caps 7 l sp7 hl7, parse_text_value_eq caps 8 l sp8 hl8,
      parse_int_value_eq_err caps 9 l sp9 hl9 hn9,
      except_bind_ok_eq, except_bind_error_eq]
  exact ⟨hmain, fun ce => by rw [hmain]; simp⟩

theorem bad_status_gives_format_mismatch_witness :
    CommonLogLineParser.new.parse
        "125.125.125.125 - dsmith [10/Oct/1999:21:15:05 +0500] \"GET /index.html HTTP/1.0\" abc 1043" =
      .error (.ParseError
        "125.125.125.125 - dsmith [10/Oct/1999:21:15:05 +0500] \"GET /index.html HTTP/1.0\" abc 1043") ∧
    ∀ ce, CommonLogLineParser.new.parse
        "125.125.125.125 - dsmith [10/Oct/1999:21:15:05 +0500] \"GET /index.html HTTP/1.0\" abc 1043" ≠
      .error (.TimestampParseError ce) :=
  bad_status_gives_format_mismatch
    "125.125.125.125 - dsmith [10/Oct/1999:21:15:05 +0500] \"GET /index.html HTTP/1.0\" abc 1043"
    ⟨(rustTrim "125.125.125.125 - dsmith [10/Oct/1999:21:15:05 +0500] \"GET /index.html HTTP/1.0\" abc 1043").data,
     [(0, 0, 89), (10, 85, 4), (9, 81, 3), (5, 55, 24), (8, 71, 8), (7, 59, 11), (6, 55, 3),
      (4, 26, 26), (3, 18, 6), (2, 16, 1), (1, 0, 15)]⟩
    (26, 26) (81, 3) ⟨1999, 10, 10, 21, 15, 5, 18000⟩ rfl rfl rfl rfl rfl

/-- C10: a line that is Common-shaped, with a valid timestamp, whose
byte-count capture is the placeholder `-` (as real servers emit for bodyless
responses) is rejected with the format-mismatch `ParseError` and produces no
event, because the byte-count capture must parse as a `u64`.  (The status
capture need not even be assumed valid: either way the result is the same
`ParseError`.) -/
theorem dash_bytes_rejected (l : String) (caps : Captures)
    (sp4 sp10 : Nat × Nat) (t4 : FixedDateTime)
    (hcap : captures commonLogRegex (rustTrim l).data = some caps)
    (hl4 : caps.groups.lookup 4 = some sp4)
    (hts : DateTime.parse_from_str (capStr caps.hay sp4.1 sp4.2) COMMON_LOG_TIMESTAMP = .ok t4)
    (hl10 : caps.groups.lookup 10 = some sp10)
    (hdash : capStr caps.hay sp10.1 sp10.2 = "-") :
    CommonLogLineParser.new.parse l = .error (.ParseError l) := by
  obtain ⟨-, -, -, hlk, -⟩ := common_captures_spec _ caps hcap
  obtain ⟨sp1, hl1⟩ := Option.isSome_iff_exists.mp (hlk 1 (by decide))
  obtain ⟨sp2, hl2⟩ := Option.isSome_iff_exists.mp (hlk 2 (by decide))
  obtain ⟨sp3, hl3⟩ := Option.isSome_iff_exists.mp (hlk 3 (by decide))
  obtain ⟨sp5, hl5⟩ := Option.isSome_iff_exists.mp (hlk 5 (by decide))
  obtain ⟨sp6, hl6⟩ := Option.isSome_iff_exists.mp (hlk 6 (by decide))
  obtain ⟨sp7, hl7⟩ := Option.isSome_iff_exists.mp (hlk 7 (by decide))
  obtain ⟨sp8, hl8⟩ := Option.isSome_iff_exists.mp (hlk 8 (by decide))
  have hn10 : rustParseU64 (capStr caps.hay sp10.1 sp10.2) = none := by
    rw [hdash]; rfl
  rcases parse_int_value_cases caps 9 l with ⟨n9, hok9⟩ | herr9
  · simp only [CommonLogLineParser.parse, CommonLogLineParser.new, hcap,
      parse_text_value_eq caps 1 l sp1 hl1, parse_text_value_eq caps 2 l sp2 hl2,
      parse_text_value_eq caps 3 l sp3 hl3,
      parse_timestamp_eq_ok caps 4 l COMMON_LOG_TIMESTAMP sp4 t4 hl4 hts,
      parse_text_value_eq caps 5 l sp5 hl5, parse_text_value_eq caps 6 l sp6 hl6,
      parse_text_value_eq caps 7 l sp7 hl7, parse_text_value_eq caps 8 l sp8 hl8,
      hok9, parse_int_value_eq_err caps 10 l sp10 hl10 hn10,
      except_bind_ok_eq, except_bind_error_eq]
  · simp only [CommonLogLineParser.parse, CommonLogLineParser.new, hcap,
      parse_text_value_eq caps 1 l sp1 hl1, parse_text_value_eq caps 2 l sp2 hl2,
      parse_text_value_eq caps 3 l sp3 hl3,
      parse_timestamp_eq_ok caps 4 l COMMON_LOG_TIMESTAMP sp4 t4 hl4 hts,
      parse_text_value_eq caps 5 l sp5 hl5, parse_text_value_eq caps 6 l sp6 hl6,
      parse_text_value_eq caps 7 l sp7 hl7, parse_text_value_eq caps 8 l sp8 hl8,
      herr9, except_bind_ok_eq, except_bind_error_eq]

theorem dash_bytes_rejected_witness :
    CommonLogLineParser.new.parse
        "125.125.125.125 - dsmith [10/Oct/1999:21:15:05 +0500] \"GET /index.html HTTP/1.0\" 200 -" =
      .error (.ParseError
        "125.125.125.125 - dsmith [10/Oct/1999:21:15:05 +0500] \"GET /index.html HTTP/1.0\" 200 -") :=
  dash_bytes_rejected
    "125.125.125.125 - dsmith [10/Oct/1999:21:15:05 +0500] \"GET /index.html HTTP/1.0\" 200 -"
    ⟨(rustTrim "125.125.125.125 - dsmith [10/Oct/1999:21:15:05 +0500] \"GET /index.html HTTP/1.0\" 200 -").data,
     [(0, 0, 86), (10, 85, 1), (9, 81, 3), (5, 55, 24), (8, 71, 8), (7, 59, 11), (6, 55, 3),
      (4, 26, 26), (3, 18, 6), (2, 16, 1), (1, 0, 15)]⟩
    (26, 26) (85, 1) ⟨1999, 10, 10, 21, 15, 5, 18000⟩ rfl rfl rfl rfl rfl

theorem lookup_isSome_iff_keys (k : String) :
    ∀ (m : List (String × LogFieldValue)), (m.lookup k).isSome ↔ k ∈ m.map Prod.fst := by
  intro m
  induction m with
  | nil => simp
  | cons a m ih =>
    obtain ⟨k1, v1⟩ := a
    by_cases hk : k = k1
    · subst hk; simp [List.lookup]
    · simp only [List.lookup, beq_eq_false_iff_ne.mpr hk, List.map_cons, List.mem_cons]
      rw [ih]
      constructor
      · exact Or.inr
      · intro h
        rcases h with h | h
        · exact absurd h hk
        · exact h

/-- C4: every `Ok` result of `CommonLogLineParser::parse` is a fully
populated event: its keys are exactly the ten fixed field names, with
`@timestamp` a `Timestamp`, `status_code` and `bytes` `Int`s, and the seven
remaining fields `Text`; no partially populated event is ever returned. -/
theorem event_fully_populated (l : String) (e : LogEvent)
    (h : CommonLogLineParser.new.parse l = .ok e) :
    (∀ k : String, (e.values.lookup k).isSome ↔
      k ∈ ["remote_host", "some_nonsense", "username", "@timestamp", "request_url",
           "method", "request_uri", "protocol", "status_code", "bytes"]) ∧
    (∃ t, e.values.lookup "@timestamp" = some (.Timestamp t)) ∧
    (∃ n, e.values.lookup "status_code" = some (.Int n)) ∧
    (∃ n, e.values.lookup "bytes" = some (.Int n)) ∧
    (∃ s, e.values.lookup "remote_host" = some (.Text s)) ∧
    (∃ s, e.values.lookup "some_nonsense" = some (.Text s)) ∧
    (∃ s, e.values.lookup "username" = some (.Text s)) ∧
    (∃ s, e.values.lookup "request_url" = some (.Text s)) ∧
    (∃ s, e.values.lookup "method" = some (.Text s)) ∧
    (∃ s, e.values.lookup "request_uri" = some (.Text s)) ∧
    (∃ s, e.values.lookup "protocol" = some (.Text s)) := by
  obtain ⟨caps, sp1, sp2, sp3, sp4, sp5, sp6, sp7, sp8, sp9, sp10, t4, n9, n10,
    hcap, hl1, hl2, hl3, hl4, hl5, hl6, hl7, hl8, hl9, hl10, ht4, hn9, hn10, he⟩ :=
    commonParse_ok_inv l e h
  subst he
  refine ⟨?_, ⟨t4, rfl⟩, ⟨n9, rfl⟩, ⟨n10, rfl⟩, ⟨_, rfl⟩, ⟨_, rfl⟩, ⟨_, rfl⟩, ⟨_, rfl⟩,
    ⟨_, rfl⟩, ⟨_, rfl⟩, ⟨_, rfl⟩⟩
  intro k
  rw [lookup_isSome_iff_keys]
  show k ∈ ["bytes", "status_code", "protocol", "request_uri", "method", "request_url",
    "@timestamp", "username", "some_nonsense", "remote_host"] ↔ _
  simp only [List.mem_cons, List.not_mem_nil, or_false]
  tauto

theorem event_fully_populated_witness :
    (∃ t, (LogEvent.ofMap
      [("bytes", .Int 1043), ("status_code", .Int 200), ("protocol", .Text "HTTP/1.0"),
       ("request_uri", .Text "/index.html"), ("method", .Text "GET"),
       ("request_url", .Text "GET /index.html HTTP/1.0"),
       ("@timestamp", .Timestamp ⟨1999, 10, 10, 21, 15, 5, 18000⟩),
       ("username", .Text "dsmith"), ("some_nonsense", .Text "-"),
       ("remote_host", .Text "125.125.125.125")]).values.lookup "@timestamp" =
        some (.Timestamp t)) ∧
    (∀ k : String, ((LogEvent.ofMap
      [("bytes", .Int 1043), ("status_code", .Int 200), ("protocol", .Text "HTTP/1.0"),
       ("request_uri", .Text "/index.html"), ("method", .Text "GET"),
       ("request_url", .Text "GET /index.html HTTP/1.0"),
       ("@timestamp", .Timestamp ⟨1999, 10, 10, 21, 15, 5, 18000⟩),
       ("username", .Text "dsmith"), ("some_nonsense", .Text "-"),
       ("remote_host", .Text "125.125.125.125")]).values.lookup k).isSome ↔
      k ∈ ["remote_host", "some_nonsense", "username", "@timestamp", "request_url",
           "method", "request_uri", "protocol", "status_code", "bytes"]) :=
  ⟨(event_fully_populated
      "125.125.125.125 - dsmith [10/Oct/1999:21:15:05 +0500] \"GET /index.html HTTP/1.0\" 200 1043"
      _ rfl).2.1,
   (event_fully_populated
      "125.125.125.125 - dsmith [10/Oct/1999:21:15:05 +0500] \"GET /index.html HTTP/1.0\" 200 1043"
      _ rfl).1⟩

/-- C7: matching is anchored to the whole trimmed line: `parse` succeeds with
an event exactly when it succeeds with the same event on the pre-trimmed
line (whitespace trimming is what `parse` itself performs first), and any
successful match spans the entire trimmed line from position 0 to its end
(group 0's span is the whole string), so no line is ever partially parsed. -/
theorem parse_trim_invariant_and_anchored :
    (∀ (l : String) (e : LogEvent),
      CommonLogLineParser.new.parse l = .ok e ↔
        CommonLogLineParser.new.parse (rustTrim l) = .ok e) ∧
    (∀ (l : String) (caps : Captures),
      captures commonLogRegex (rustTrim l).data = some caps →
      caps.groups.lookup 0 = some (0, (rustTrim l).data.length)) := by
  constructor
  · intro l e
    constructor
    · intro h
      obtain ⟨caps, sp1, sp2, sp3, sp4, sp5, sp6, sp7, sp8, sp9, sp10, t4, n9, n10,
        hcap, hl1, hl2, hl3, hl4, hl5, hl6, hl7, hl8, hl9, hl10, ht4, hn9, hn10, he⟩ :=
        commonParse_ok_inv l e h
      subst he
      exact commonParse_eval (rustTrim l) caps sp1 sp2 sp3 sp4 sp5 sp6 sp7 sp8 sp9 sp10
        t4 n9 n10 (by rw [rustTrim_idem]; exact hcap)
        hl1 hl2 hl3 hl4 hl5 hl6 hl7 hl8 hl9 hl10 ht4 hn9 hn10
    · intro h
      obtain ⟨caps, sp1, sp2, sp3, sp4, sp5, sp6, sp7, sp8, sp9, sp10, t4, n9, n10,
        hcap, hl1, hl2, hl3, hl4, hl5, hl6, hl7, hl8, hl9, hl10, ht4, hn9, hn10, he⟩ :=
        commonParse_ok_inv (rustTrim l) e h
      subst he
      have hcap' : captures commonLogRegex (rustTrim l).data = some caps := by
        rw [← rustTrim_idem l]; exact hcap
      exact commonParse_eval l caps sp1 sp2 sp3 sp4 sp5 sp6 sp7 sp8 sp9 sp10
        t4 n9 n10 hcap' hl1 hl2 hl3 hl4 hl5 hl6 hl7 hl8 hl9 hl10 ht4 hn9 hn10
  · intro l caps h
    exact (common_captures_spec _ caps h).2.1

theorem parse_trim_invariant_and_anchored_witness :
    (CommonLogLineParser.new.parse
        "  125.125.125.125 - dsmith [10/Oct/1999:21:15:05 +0500] \"GET /index.html HTTP/1.0\" 200 1043  " =
      .ok (LogEvent.ofMap
        [("bytes", .Int 1043), ("status_code", .Int 200), ("protocol", .Text "HTTP/1.0"),
         ("request_uri", .Text "/index.html"), ("method", .Text "GET"),
         ("request_url", .Text "GET /index.html HTTP/1.0"),
         ("@timestamp", .Timestamp ⟨1999, 10, 10, 21, 15, 5, 18000⟩),
         ("username", .Text "dsmith"), ("some_nonsense", .Text "-"),
         ("remote_host", .Text "125.125.125.125")]) ↔
      CommonLogLineParser.new.parse
        (rustTrim "  125.125.125.125 - dsmith [10/Oct/1999:21:15:05 +0500] \"GET /index.html HTTP/1.0\" 200 1043  ") =
      .ok (LogEvent.ofMap
        [("bytes", .Int 1043), ("status_code", .Int 200), ("protocol", .Text "HTTP/1.0"),
         ("request_uri", .Text "/index.html"), ("method", .Text "GET"),
         ("request_url", .Text "GET /index.html HTTP/1.0"),
         ("@timestamp", .Timestamp ⟨1999, 10, 10, 21, 15, 5, 18000⟩),
         ("username", .Text "dsmith"), ("some_nonsense", .Text "-"),
         ("remote_host", .Text "125.125.125.125")])) ∧
    ((Captures.mk
      (rustTrim "125.125.125.125 - dsmith [10/Oct/1999:21:15:05 +0500] \"GET /index.html HTTP/1.0\" 200 1043").data
      [(0, 0, 89), (10, 85, 4), (9, 81, 3), (5, 55, 24), (8, 71, 8), (7, 59, 11), (6, 55, 3),
       (4, 26, 26), (3, 18, 6), (2, 16, 1), (1, 0, 15)]).groups.lookup 0 =
      some (0, (rustTrim "125.125.125.125 - dsmith [10/Oct/1999:21:15:05 +0500] \"GET /index.html HTTP/1.0\" 200 1043").data.length)) :=
  ⟨parse_trim_invariant_and_anchored.1
      "  125.125.125.125 - dsmith [10/Oct/1999:21:15:05 +0500] \"GET /index.html HTTP/1.0\" 200 1043  " _,
   parse_trim_invariant_and_anchored.2
      "125.125.125.125 - dsmith [10/Oct/1999:21:15:05 +0500] \"GET /index.html HTTP/1.0\" 200 1043"
      _ rfl⟩

theorem takeWhile_append_stop (pc : Char → Bool) (b : Char) (hb : pc b = false) :
    ∀ (a rest : List Char), (∀ c ∈ a, pc c = true) →
      (a ++ b :: rest).takeWhile pc = a := by
  intro a
  induction a with
  | nil => intro rest _; simp [List.takeWhile_cons, hb]
  | cons x a ih =>
    intro rest ha
    have hx : pc x = true := ha x (by simp)
    simp only [List.cons_append, List.takeWhile_cons, hx, if_true]
    rw [ih rest (fun c hc => ha c (by simp [hc]))]

theorem eol_isSome_inv (v : List Char) (p : Nat) (g : Groups) (k : MCont)
    (h : (reMatch .eol v p g k).isSome) : v = [] ∧ (k [] p g).isSome := by
  rw [reMatch_eol_eq] at h
  by_cases he : v.isEmpty
  · have hv : v = [] := by simpa [List.isEmpty_iff] using he
    subst hv
    simpa using h
  · rw [if_neg he] at h
    simp at h

/-- The modelled Combined tail `\s+"([^"]*)"\s+"([^"]*` followed by the final
`"` and `$` matches a single space, a quoted quote-free referrer, a space and
a quoted quote-free user agent exactly. -/
theorem combinedMid_matches_suffix (r u : String)
    (hr : ∀ c ∈ r.data, c ≠ '"') (hu : ∀ c ∈ u.data, c ≠ '"')
    (p : Nat) (g : Groups) (K : MCont) (hK : ∀ a b c, (K a b c).isSome) :
    (reMatch combinedMid
      (' ' :: '"' :: (r.data ++ ('"' :: ' ' :: '"' :: (u.data ++ ['"'])))) p g
      (fun v2 p2 g2 => reMatch (.seq (.cls isQuote) .eol) v2 p2 g2 K)).isSome := by
  have hwsp : rustIsWhitespace ' ' = true := rfl
  have hwsq : rustIsWhitespace '"' = false := rfl
  have hqq : isQuote '"' = true := rfl
  have hnotq_r : ∀ c ∈ r.data, notQuote c = true := fun c hc => decide_eq_true (hr c hc)
  have hnotq_u : ∀ c ∈ u.data, notQuote c = true := fun c hc => decide_eq_true (hu c hc)
  rw [show combinedMid = .seq (.plusCls rustIsWhitespace)
    (.seq (.cls isQuote) (.seq (.group 11 (.starCls notQuote))
    (.seq (.cls isQuote) (.seq (.plusCls rustIsWhitespace)
    (.seq (.cls isQuote) (.group 12 (.starCls notQuote))))))) from rfl]
  rw [reMatch_seq_eq]
  have htw1 : (((' ' :: '"' :: (r.data ++ ('"' :: ' ' :: '"' :: (u.data ++ ['"'])))).takeWhile
      rustIsWhitespace)).length = 1 := by
    simp [List.takeWhile_cons, hwsp, hwsq]
  apply plus_isSome_intro _ _ _ _ _ 1 (le_refl 1) (by rw [htw1])
  simp only [List.drop_succ_cons, List.drop_zero]
  rw [reMatch_seq_eq]
  apply cls_isSome_intro _ _ _ _ _ _ hqq
  rw [reMatch_seq_eq, reMatch_group_eq]
  have htwr : ((r.data ++ ('"' :: ' ' :: '"' :: (u.data ++ ['"']))).takeWhile notQuote) =
      r.data :=
    takeWhile_append_stop notQuote '"' rfl r.data _ hnotq_r
  apply star_isSome_intro _ _ _ _ _ r.data.length (by rw [htwr])
  rw [List.drop_left]
  rw [reMatch_seq_eq]
  apply cls_isSome_intro _ _ _ _ _ _ hqq
  rw [reMatch_seq_eq]
  have htw2 : ((' ' :: '"' :: (u.data ++ ['"'])).takeWhile rustIsWhitespace).length = 1 := by
    simp [List.takeWhile_cons, hwsp, hwsq]
  apply plus_isSome_intro _ _ _ _ _ 1 (le_refl 1) (by rw [htw2])
  simp only [List.drop_succ_cons, List.drop_zero]
  rw [reMatch_seq_eq]
  apply cls_isSome_intro _ _ _ _ _ _ hqq
  rw [reMatch_group_eq]
  have htwu : ((u.data ++ ['"']).takeWhile notQuote) = u.data :=
    takeWhile_append_stop notQuote '"' rfl u.data [] hnotq_u
  apply star_isSome_intro _ _ _ _ _ u.data.length (by rw [htwu])
  rw [List.drop_left]
  rw [reMatch_seq_eq]
  apply cls_isSome_intro _ _ _ _ _ _ hqq
  rw [reMatch_eol_eq]
  simp only [List.isEmpty_nil, if_true]
  exact hK _ _ _

/-- C2 (Combined parser modelled from the spec, its source not being among
the files): (1) every line that is a Common-shaped prefix followed by a
quoted quote-free referrer and a quoted quote-free user-agent field is
accepted by the Combined matcher (the matcher stage of
`CombinedLogLineParser::parse` succeeds); (2) every Common-only line — one
the Common parser fully accepts, hence ending in its numeric byte count — is
rejected by the Combined parser with a format mismatch, because the Combined
pattern requires the line to end with a closing quote. -/
theorem combined_superset_rejects_common_only :
    (∀ (l r u : String),
      captures commonLogRegex (rustTrim l).data ≠ none →
      (∀ c ∈ r.data, c ≠ '"') → (∀ c ∈ u.data, c ≠ '"') →
      captures combinedLogRegex
        (rustTrim (rustTrim l ++ " \"" ++ r ++ "\" \"" ++ u ++ "\"")).data ≠ none) ∧
    (∀ (l : String) (e : LogEvent),
      CommonLogLineParser.new.parse l = .ok e →
      CombinedLogLineParser.new.parse l = .error (.ParseError l)) := by
  constructor
  · intro l r u hcm hr hu
    obtain ⟨caps, hcap⟩ : ∃ caps, captures commonLogRegex (rustTrim l).data = some caps := by
      cases h : captures commonLogRegex (rustTrim l).data with
      | none => exact absurd h hcm
      | some caps => exact ⟨caps, rfl⟩
    obtain ⟨-, -, -, -, c, t, hct, hcns⟩ := common_captures_spec _ caps hcap
    have hcw : rustIsWhitespace c = false := by
      simpa [nonSpace] using hcns
    have hdata : (rustTrim l ++ " \"" ++ r ++ "\" \"" ++ u ++ "\"").data =
        (rustTrim l).data ++
          (' ' :: '"' :: (r.data ++ ('"' :: ' ' :: '"' :: (u.data ++ ['"'])))) := by
      simp [String.data_append, show (" \"").data = [' ', '"'] from rfl,
        show ("\" \"").data = ['"', ' ', '"'] from rfl,
        show ("\"").data = ['"'] from rfl]
    have htrim : rustTrim (rustTrim l ++ " \"" ++ r ++ "\" \"" ++ u ++ "\"") =
        rustTrim l ++ " \"" ++ r ++ "\" \"" ++ u ++ "\"" := by
      apply rustTrim_eq_self
      · intro c' hc'
        rw [hdata, hct] at hc'
        simp only [List.cons_append, List.head?_cons, Option.some_inj] at hc'
        rw [← hc']
        exact hcw
      · intro c' hc'
        rw [hdata] at hc'
        have hlq : ((rustTrim l).data ++
            (' ' :: '"' :: (r.data ++ ('"' :: ' ' :: '"' :: (u.data ++ ['"']))))).getLast? =
            some '"' := by
          rw [show (rustTrim l).data ++
              (' ' :: '"' :: (r.data ++ ('"' :: ' ' :: '"' :: (u.data ++ ['"'])))) =
              ((rustTrim l).data ++
              (' ' :: '"' :: (r.data ++ ('"' :: ' ' :: '"' :: u.data)))) ++ ['"'] by
            simp]
          exact List.getLast?_concat _
        rw [hlq] at hc'
        simp only [Option.some_inj] at hc'
        rw [← hc']
        rfl
    rw [htrim, hdata]
    -- reduce the accepted Common match to the body matcher
    rw [show commonLogRegex = .seq .bol (.seq commonBody .eol) from rfl,
      captures_bol_eq, matchAt, List.drop_zero, reMatch_seq_eq, reMatch_bol_zero,
      reMatch_seq_eq] at hcap
    -- open the Combined matcher the same way on the extended line
    rw [show combinedLogRegex =
        .seq .bol (.seq (.seq commonBody combinedMid) (.seq (.cls isQuote) .eol)) from rfl,
      captures_bol_eq, matchAt, List.drop_zero, reMatch_seq_eq, reMatch_bol_zero,
      reMatch_seq_eq, reMatch_seq_eq]
    have hsome : (reMatch commonBody
        ((rustTrim l).data ++
          (' ' :: '"' :: (r.data ++ ('"' :: ' ' :: '"' :: (u.data ++ ['"']))))) 0 []
        (fun v p g => reMatch combinedMid v p g
          (fun v2 p2 g2 => reMatch (.seq (.cls isQuote) .eol) v2 p2 g2
            (fun _ p' g' => some ⟨(rustTrim l).data ++
              (' ' :: '"' :: (r.data ++ ('"' :: ' ' :: '"' :: (u.data ++ ['"'])))),
              (0, 0, p' - 0) :: g'⟩)))).isSome := by
      apply reMatch_ext commonBody rfl
        (' ' :: '"' :: (r.data ++ ('"' :: ' ' :: '"' :: (u.data ++ ['"']))))
        (rustTrim l).data 0 []
        (fun v p' g' => reMatch .eol v p' g'
          (fun _ p' g' => some ⟨(rustTrim l).data, (0, 0, p' - 0) :: g'⟩))
      · intro v p' g' hv
        obtain ⟨hvnil, -⟩ := eol_isSome_inv v p' g' _ hv
        subst hvnil
        simp only [List.nil_append]
        exact combinedMid_matches_suffix r u hr hu p' g' _ (fun _ _ _ => rfl)
      · rw [hcap]
        rfl
    obtain ⟨res, hres⟩ := Option.isSome_iff_exists.mp hsome
    rw [hres]
    simp
  · intro l e h
    obtain ⟨caps, sp1, sp2, sp3, sp4, sp5, sp6, sp7, sp8, sp9, sp10, t4, n9, n10,
      hcap, hl1, hl2, hl3, hl4, hl5, hl6, hl7, hl8, hl9, hl10, ht4, hn9, hn10, he⟩ :=
      commonParse_ok_inv l e h
    obtain ⟨hhay, h0, ⟨v, hvne, hvsuf, hv10⟩, hlk, hhd⟩ := common_captures_spec _ caps hcap
    -- the bytes capture is the final nonempty segment of the trimmed line and
    -- parses as a u64, so the line ends in a digit
    have hsp10 : sp10 = ((rustTrim l).data.length - v.length, v.length) := by
      rw [hl10] at hv10
      exact Option.some_inj.mp hv10
    have hvstr : capStr caps.hay sp10.1 sp10.2 = String.mk v := by
      rw [hhay, hsp10]
      exact capStr_suffix _ v hvsuf
    rw [hvstr] at hn10
    obtain ⟨d, hd, hdig⟩ := rustParseU64_last_digit _ _ hn10
    have hdlast : (rustTrim l).data.getLast? = some d := by
      obtain ⟨pre, hpre⟩ := hvsuf
      rw [← hpre]
      have hdv : v.getLast? = some d := hd
      have hmem : d ∈ (pre ++ v).getLast? :=
        List.mem_getLast?_append_of_mem_getLast? (Option.mem_def.mpr hdv)
      exact Option.mem_def.mp hmem
    -- the Combined pattern requires the line to end with a quote
    unfold CombinedLogLineParser.parse CombinedLogLineParser.new
    cases hc2 : captures combinedLogRegex (rustTrim l).data with
    | none => rfl
    | some caps2 =>
      exfalso
      have hq := combined_last_quote _ caps2 hc2
      rw [hdlast] at hq
      simp only [Option.some_inj] at hq
      rw [hq] at hdig
      exact absurd hdig (by decide)

theorem combined_superset_rejects_common_only_witness :
    captures combinedLogRegex
      (rustTrim (rustTrim
        "125.125.125.125 - dsmith [10/Oct/1999:21:15:05 +0500] \"GET /index.html HTTP/1.0\" 200 1043" ++
        " \"" ++ "-" ++ "\" \"" ++ "Mozilla/5.0" ++ "\"")).data ≠ none ∧
    CombinedLogLineParser.new.parse
        "125.125.125.125 - dsmith [10/Oct/1999:21:15:05 +0500] \"GET /index.html HTTP/1.0\" 200 1043" =
      .error (.ParseError
        "125.125.125.125 - dsmith [10/Oct/1999:21:15:05 +0500] \"GET /index.html HTTP/1.0\" 200 1043") :=
  ⟨combined_superset_rejects_common_only.1
      "125.125.125.125 - dsmith [10/Oct/1999:21:15:05 +0500] \"GET /index.html HTTP/1.0\" 200 1043"
      "-" "Mozilla/5.0" (by decide) (by decide) (by decide),
   combined_superset_rejects_common_only.2
      "125.125.125.125 - dsmith [10/Oct/1999:21:15:05 +0500] \"GET /index.html HTTP/1.0\" 200 1043"
      (LogEvent.ofMap
        [("bytes", .Int 1043), ("status_code", .Int 200), ("protocol", .Text "HTTP/1.0"),
         ("request_uri", .Text "/index.html"), ("method", .Text "GET"),
         ("request_url", .Text "GET /index.html HTTP/1.0"),
         ("@timestamp", .Timestamp ⟨1999, 10, 10, 21, 15, 5, 18000⟩),
         ("username", .Text "dsmith"), ("some_nonsense", .Text "-"),
         ("remote_host", .Text "125.125.125.125")])
      rfl⟩

end Redeye
